import Mathlib

/-!
# appChill backend (`backend/server.js`): a shallow embedding

The relational store is a record of tables (lists of rows); every `db.query`
becomes a pure function on the tables that returns either an error or the
result the callback receives.  Every handler is a function from the store and
the request to the HTTP reply and the store afterwards.

A value the handler compares in JavaScript or hands on to a client is kept as the raw
value the request carries: the route parameter of the send-request handler is a string,
the fields of the message body are JavaScript values.  What JavaScript's `==` and the
store's column conversion make of such a value is not code of this repository; both are
fields of `Runtime`, every handler that needs them takes a `Runtime`, and `jsMysql` is
the instance written after the ECMAScript and MySQL documentation.  A route parameter
that only occurs in a `WHERE` comparison is modelled as the id it is compared as.

`storeFault` is the environment's input to one `db.query`: `true` means the store
reports an error that the tables themselves do not explain (connection lost, and so on).
-/

namespace AppChill

/-! ## Store errors and replies -/

/-- The `err` object handed to a `db.query` callback. -/
inductive DbError where
  | ER_DUP_ENTRY (sqlMessage : String)
  | ER_BAD_NULL_ERROR
  | ER_NO_REFERENCED_ROW
  | ER_TRUNCATED_WRONG_VALUE_FOR_FIELD
  | other
deriving DecidableEq, Repr

/-- What a handler sends: `res.status(code).json({ error })`, or `res.json(body)`. -/
inductive Reply (α : Type) where
  | error (status : Nat) (msg : String)
  | json (body : α)
deriving DecidableEq, Repr

/-- The identity attached to a request by `authenticateToken` (`req.user`). -/
structure AuthUser where
  id : Nat
  username : String
  iat : Nat
deriving DecidableEq, Repr

/-! ## Strings as JavaScript sees them -/

/-- The method `String.prototype.split` with a one-character separator, on the list of
characters: `"a b".split(' ')` is `["a", "b"]` and `"".split(' ')` is `[""]`. -/
def splitChars (sep : Char) : List Char → List (List Char)
  | [] => [[]]
  | c :: cs =>
    if c = sep then [] :: splitChars sep cs
    else
      match splitChars sep cs with
      | [] => [[c]]
      | w :: ws => (c :: w) :: ws

/-- The method `s.split(sep)`. -/
def jsSplit (s : String) (sep : Char) : List String :=
  (splitChars sep s.data).map String.mk

/-- The method `String.prototype.includes` on lists of characters. -/
def includesChars : List Char → List Char → Bool
  | [], sub => sub.isEmpty
  | c :: cs, sub => sub.isPrefixOf (c :: cs) || includesChars cs sub

/-- The method `s.includes(sub)`. -/
def jsIncludes (s sub : String) : Bool :=
  includesChars s.data sub.data

/-- JavaScript truthiness of a value that is a string or `undefined`: `!v` is true
for `undefined` and for the empty string. -/
def falsy (v : Option String) : Bool :=
  match v with
  | none => true
  | some s => s.data.isEmpty

/-- The white space and line terminators that `String.prototype.trim` removes. -/
def jsWhiteSpace (c : Char) : Bool :=
  let n := c.toNat
  (9 ≤ n && n ≤ 13) || n == 32 || n == 160 || n == 5760 || (8192 ≤ n && n ≤ 8202) ||
  n == 8232 || n == 8233 || n == 8239 || n == 8287 || n == 12288 || n == 65279

/-- The method `String.prototype.trim` on the list of characters. -/
def trimChars (cs : List Char) : List Char :=
  ((cs.dropWhile jsWhiteSpace).reverse.dropWhile jsWhiteSpace).reverse

/-- The property `length` of a JavaScript string: the number of UTF-16 code units. -/
def jsLength (cs : List Char) : Nat :=
  (cs.map (fun c => if c.toNat < 65536 then 1 else 2)).sum

/-! ## Raw values, JavaScript's `==` and the store's conversions -/

/-- A value of `req.body`, or a route parameter (always a `string`).  `number text` is the
number whose JavaScript text (`String(n)`) is `text`; that text is also how the driver
writes the number into a statement.  `other json` is the object or array whose JSON text
is `json`. -/
inductive JsValue where
  | undefined
  | null
  | bool (b : Bool)
  | number (text : String)
  | string (s : String)
  | other (json : String)
deriving DecidableEq, Repr

/-- What the store makes of a statement parameter bound to a column: `NULL`, a value of
the column's type, or a refusal of the statement. -/
inductive Converted (α : Type) where
  | null
  | value (a : α)
  | rejected
deriving DecidableEq, Repr

/-- The two things outside the repository that decide what a raw value means. -/
structure Runtime where
  /-- JavaScript's `s == n` for a string `s` and a number `n`. -/
  looseEq : String → Nat → Bool
  /-- The store's conversion of a parameter bound to an `INT` column. -/
  toInt : JsValue → Converted Nat
  /-- The store's conversion of a parameter bound to a `TEXT` column. -/
  toText : JsValue → Converted String

/-- The route parameter `s` names the user `n`, to JavaScript's `==` as well as to the
store. -/
def Runtime.Names (rt : Runtime) (s : String) (n : Nat) : Prop :=
  (∀ m, rt.looseEq s m = decide (m = n)) ∧ rt.toInt (.string s) = .value n

/-- A decimal numeral that was read in full: its value is `mantissa * 10 ^ exponent`,
negated when `negative`. -/
structure Decimal where
  negative : Bool
  mantissa : Nat
  exponent : Int
deriving DecidableEq, Repr

/-- The test for one of the characters `0` to `9`. -/
def isDigitChar (c : Char) : Bool :=
  48 ≤ c.toNat && c.toNat ≤ 57

/-- The number a run of decimal digits stands for. -/
def digitsValue (cs : List Char) : Nat :=
  cs.foldl (fun acc c => 10 * acc + (c.toNat - 48)) 0

/-- An optional sign and the characters after it; `true` for a minus. -/
def readSign : List Char → Bool × List Char
  | '-' :: cs => (true, cs)
  | '+' :: cs => (false, cs)
  | cs => (false, cs)

/-- What follows the digits of a numeral: nothing (exponent 0), or `e` or `E`, an optional
sign and at least one digit.  Anything else is no numeral. -/
def readExponent : List Char → Option Int
  | [] => some 0
  | c :: cs =>
    if c = 'e' ∨ c = 'E' then
      let signed := readSign cs
      if signed.2.isEmpty || !signed.2.all isDigitChar then none
      else some (if signed.1 then -(digitsValue signed.2 : Int) else (digitsValue signed.2 : Int))
    else none

/-- The fraction of a numeral and what follows it: the digits after a point, if there is
a point. -/
def readFraction : List Char → List Char × List Char
  | '.' :: cs => (cs.takeWhile isDigitChar, cs.dropWhile isDigitChar)
  | cs => ([], cs)

/-- A whole list of characters read as `[sign] digits [. digits] [exponent]`, with a digit
before or after the point. -/
def readDecimal (cs : List Char) : Option Decimal :=
  let signed := readSign cs
  let intDigits := signed.2.takeWhile isDigitChar
  let frac := readFraction (signed.2.dropWhile isDigitChar)
  if intDigits.isEmpty && frac.1.isEmpty then none
  else
    match readExponent frac.2 with
    | none => none
    | some e => some ⟨signed.1, digitsValue (intDigits ++ frac.1), e - (frac.1.length : Int)⟩

/-- The value of a digit in a radix up to 16, if the character is one. -/
def radixDigit (radix : Nat) (c : Char) : Option Nat :=
  let n := c.toNat
  let v := if 48 ≤ n ∧ n ≤ 57 then n - 48
    else if 97 ≤ n ∧ n ≤ 102 then n - 87
    else if 65 ≤ n ∧ n ≤ 70 then n - 55
    else 16
  if v < radix then some v else none

/-- A non-empty run of digits of the radix, read in full. -/
def readRadix (radix : Nat) (cs : List Char) : Option Nat :=
  if cs.isEmpty then none
  else cs.foldl (fun acc c =>
    match acc, radixDigit radix c with
    | some a, some d => some (radix * a + d)
    | _, _ => none) (some 0)

/-- The literals `0x…`, `0o…` and `0b…` of JavaScript's string-to-number conversion. -/
def readNonDecimal : List Char → Option Nat
  | '0' :: c :: cs =>
    if c = 'x' ∨ c = 'X' then readRadix 16 cs
    else if c = 'o' ∨ c = 'O' then readRadix 8 cs
    else if c = 'b' ∨ c = 'B' then readRadix 2 cs
    else none
  | _ => none

/-- The natural number a numeral is equal to, if it is equal to one. -/
def decimalToNat (d : Decimal) : Option Nat :=
  if d.mantissa = 0 then some 0
  else if d.negative then none
  else if 0 ≤ d.exponent then some (d.mantissa * 10 ^ d.exponent.toNat)
  else if d.mantissa % 10 ^ (-d.exponent).toNat = 0 then
    some (d.mantissa / 10 ^ (-d.exponent).toNat)
  else none

/-- JavaScript's conversion of a string to a number, as far as `==` with a natural number
needs it: `some n` when the string converts to the number `n`, `none` when it converts to
any other number or to `NaN`.  White space around the numeral is dropped and the empty
string converts to 0.  The arithmetic is exact, in place of the double's. -/
def jsStringToNat (s : String) : Option Nat :=
  let cs := trimChars s.data
  if cs.isEmpty then some 0
  else
    match readNonDecimal cs with
    | some n => some n
    | none => (readDecimal cs).bind decimalToNat

/-- A numeral rounded to the nearest integer, halves away from zero (the sign is kept by
the caller). -/
def roundHalfUp (d : Decimal) : Nat :=
  if 0 ≤ d.exponent then d.mantissa * 10 ^ d.exponent.toNat
  else (d.mantissa + 10 ^ (-d.exponent).toNat / 2) / 10 ^ (-d.exponent).toNat

/-- MySQL's strict-mode conversion of a numeral's text to an `INT` column: spaces and tabs
before and spaces after the numeral are skipped, the numeral is rounded to the nearest
integer, and text that is no numeral or a value above the column's range is refused.  Ids
are natural numbers here, so a negative value is reported as refused too. -/
def mysqlIntOfText (cs : List Char) : Converted Nat :=
  let body := ((cs.dropWhile (fun c => c = ' ' ∨ c = '\t')).reverse.dropWhile
    (fun c => c = ' ')).reverse
  match readDecimal body with
  | none => .rejected
  | some d =>
    if d.negative && roundHalfUp d != 0 then .rejected
    else if 2147483647 < roundHalfUp d then .rejected
    else .value (roundHalfUp d)

/-- The instance of `toInt` for MySQL behind the `mysql2` driver: `undefined` and `null`
are written as `NULL`, `true` and `false` as 1 and 0, a number as its text, a string as a
quoted string; numerals are then converted by `mysqlIntOfText`.  An object or an array is
expanded by the driver into an assignment or a list, which the statement does not take;
the instance reports a refusal for each of them and does not follow the one case in which
the store accepts the expansion, an array of one element. -/
def mysqlToInt : JsValue → Converted Nat
  | .undefined => .null
  | .null => .null
  | .bool b => .value (if b then 1 else 0)
  | .number text => mysqlIntOfText text.data
  | .string s => mysqlIntOfText s.data
  | .other _ => .rejected

/-- The instance of `toText` for MySQL behind the `mysql2` driver: a string is stored as
it is, a number as its text, `true` and `false` as `1` and `0`; objects and arrays as in
`mysqlToInt`. -/
def mysqlToText : JsValue → Converted String
  | .undefined => .null
  | .null => .null
  | .bool b => .value (if b then "1" else "0")
  | .number text => .value text
  | .string s => .value s
  | .other _ => .rejected

/-- Modelled after the ECMAScript and MySQL documentation: JavaScript's `==` between a
string and a number, and the conversions of MySQL in strict mode. -/
def jsMysql : Runtime :=
  ⟨fun s n => jsStringToNat s == some n, mysqlToInt, mysqlToText⟩

/-! ## Tables -/

/-- A row of `users`. -/
structure User where
  id : Nat
  username : String
  email : String
  password : String
  avatar : Option String
  bio : Option String
  status : Option String
  created_at : Nat
deriving DecidableEq, Repr

/-- A row of `messages`. -/
structure Message where
  id : Nat
  sender_id : Nat
  receiver_id : Nat
  message : String
  created_at : Nat
deriving DecidableEq, Repr

/-- The `status` column of `friends`. -/
inductive FriendStatus where
  | pending
  | accepted
deriving DecidableEq, Repr

/-- A row of `friends`: an edge from the requester `user_id` to the target `friend_id`. -/
structure Friend where
  user_id : Nat
  friend_id : Nat
  status : FriendStatus
  created_at : Nat
deriving DecidableEq, Repr

/-- A row of `likes`. -/
structure Like where
  user_id : Nat
  post_id : Nat
deriving DecidableEq, Repr

/-- The store behind the `db` connection. -/
structure Db where
  users : List User
  usersNextId : Nat
  messages : List Message
  messagesNextId : Nat
  friends : List Friend
  likes : List Like
deriving DecidableEq, Repr

/-! ## Friends: the three statements and their handlers -/

/-- Modelled from the spec: the `CREATE TABLE friends` statement is missing from the
source; the spec gives the table a uniqueness constraint on the ordered pair
(requester, target).  This is the test the store makes for that key. -/
def friendsKeyTaken (t : List Friend) (user_id friend_id : Nat) : Bool :=
  t.any (fun f => f.user_id == user_id && f.friend_id == friend_id)

/-- The statement
`INSERT INTO friends (user_id, friend_id, status) VALUES (?, ?, "pending")`.  The first
parameter is the caller's id, a number; the second is the raw route parameter, which the
store converts for the column `friend_id` (a column of the key, taken as not nullable). -/
def insertFriend (rt : Runtime) (storeFault : Bool) (now : Nat) (t : List Friend)
    (user_id : Nat) (friend_id : JsValue) : Except DbError (List Friend) :=
  if storeFault then .error .other
  else
    match rt.toInt friend_id with
    | .rejected => .error .ER_TRUNCATED_WRONG_VALUE_FOR_FIELD
    | .null => .error .ER_BAD_NULL_ERROR
    | .value fid =>
      if friendsKeyTaken t user_id fid then
        .error (.ER_DUP_ENTRY "Duplicate entry for key \x27friends.user_id\x27")
      else .ok (t ++ [⟨user_id, fid, .pending, now⟩])

/-- The rows selected by
`WHERE user_id = ? AND friend_id = ? AND status = "pending"`. -/
def isPendingEdge (user_id friend_id : Nat) (f : Friend) : Bool :=
  f.user_id == user_id && f.friend_id == friend_id && f.status == .pending

/-- The assignment `SET status = "accepted"` on the rows the `WHERE` selects. -/
def acceptRow (user_id friend_id : Nat) (f : Friend) : Friend :=
  if isPendingEdge user_id friend_id f then { f with status := .accepted } else f

/-- The statement `UPDATE friends SET status = "accepted" WHERE user_id = ? AND
friend_id = ? AND status = "pending"`; the result carries `affectedRows`. -/
def updateFriendAccepted (storeFault : Bool) (t : List Friend) (user_id friend_id : Nat) :
    Except DbError (List Friend × Nat) :=
  if storeFault then .error .other
  else .ok (t.map (acceptRow user_id friend_id),
            (t.filter (isPendingEdge user_id friend_id)).length)

/-- The rows selected by
`WHERE (user_id = ? AND friend_id = ?) OR (user_id = ? AND friend_id = ?)`
with the parameters `[a, b, b, a]`. -/
def isEdgeBetween (a b : Nat) (f : Friend) : Bool :=
  (f.user_id == a && f.friend_id == b) || (f.user_id == b && f.friend_id == a)

/-- The statement `DELETE FROM friends WHERE (user_id = ? AND friend_id = ?) OR
(user_id = ? AND friend_id = ?)`. -/
def deleteFriend (storeFault : Bool) (t : List Friend) (a b : Nat) :
    Except DbError (List Friend) :=
  if storeFault then .error .other
  else .ok (t.filter (fun f => !isEdgeBetween a b f))

/-- Handler `app.post('/api/friends/request/:userId')`.  `userId` is the route parameter,
a string; the test `userId == req.user.id` is JavaScript's `==` with the caller's id, and
the `INSERT` receives the string as it is. -/
def sendFriendRequest (rt : Runtime) (storeFault : Bool) (now : Nat) (db : Db)
    (user : AuthUser) (userId : String) : Reply String × Db :=
  if rt.looseEq userId user.id then
    (.error 400 "Нельзя добавить себя в друзья", db)
  else
    match insertFriend rt storeFault now db.friends user.id (.string userId) with
    | .error (.ER_DUP_ENTRY _) => (.error 400 "Заявка уже отправлена", db)
    | .error _ => (.error 500 "Ошибка сервера", db)
    | .ok t => (.json "Заявка в друзья отправлена", { db with friends := t })

/-- Handler `app.post('/api/friends/accept/:userId')`. -/
def acceptFriendRequest (storeFault : Bool) (db : Db) (user : AuthUser) (userId : Nat) :
    Reply String × Db :=
  match updateFriendAccepted storeFault db.friends userId user.id with
  | .error _ => (.error 500 "Ошибка сервера", db)
  | .ok (t, affectedRows) =>
    if affectedRows == 0 then
      (.error 404 "Заявка не найдена", { db with friends := t })
    else
      (.json "Заявка принята", { db with friends := t })

/-- Handler `app.delete('/api/friends/:userId')`. -/
def removeFriend (storeFault : Bool) (db : Db) (user : AuthUser) (userId : Nat) :
    Reply String × Db :=
  match deleteFriend storeFault db.friends user.id userId with
  | .error _ => (.error 500 "Ошибка сервера", db)
  | .ok t => (.json "Удалено из друзей", { db with friends := t })

/-- One call of a handler that writes to `friends`, with what the environment
supplies to it (store fault, clock). -/
inductive FriendCall where
  | request (storeFault : Bool) (now : Nat) (user : AuthUser) (userId : String)
  | accept (storeFault : Bool) (user : AuthUser) (userId : Nat)
  | remove (storeFault : Bool) (user : AuthUser) (userId : Nat)
deriving DecidableEq, Repr

/-- The store after one call. -/
def FriendCall.run (rt : Runtime) (db : Db) : FriendCall → Db
  | .request sf now user userId => (sendFriendRequest rt sf now db user userId).2
  | .accept sf user userId => (acceptFriendRequest sf db user userId).2
  | .remove sf user userId => (removeFriend sf db user userId).2

/-- The store after a sequence of calls, first call first. -/
def runFriendCalls (rt : Runtime) (db : Db) (calls : List FriendCall) : Db :=
  calls.foldl (FriendCall.run rt) db

/-! ## Likes -/

/-- Modelled from the spec: the `CREATE TABLE likes` statement is missing from the
source; the spec gives the table a uniqueness constraint on the pair (user, post).
This is the test the store makes for that key. -/
def likesKeyTaken (t : List Like) (user_id post_id : Nat) : Bool :=
  t.any (fun l => l.user_id == user_id && l.post_id == post_id)

/-- The rows selected by `WHERE user_id = ? AND post_id = ?`. -/
def isLikeOf (user_id post_id : Nat) (l : Like) : Bool :=
  l.user_id == user_id && l.post_id == post_id

/-- The statement `SELECT * FROM likes WHERE user_id = ? AND post_id = ?`. -/
def selectLikes (storeFault : Bool) (t : List Like) (user_id post_id : Nat) :
    Except DbError (List Like) :=
  if storeFault then .error .other
  else .ok (t.filter (isLikeOf user_id post_id))

/-- The statement `DELETE FROM likes WHERE user_id = ? AND post_id = ?`. -/
def deleteLikes (storeFault : Bool) (t : List Like) (user_id post_id : Nat) :
    Except DbError (List Like) :=
  if storeFault then .error .other
  else .ok (t.filter (fun l => !isLikeOf user_id post_id l))

/-- The statement `INSERT INTO likes (user_id, post_id) VALUES (?, ?)`. -/
def insertLike (storeFault : Bool) (t : List Like) (user_id post_id : Nat) :
    Except DbError (List Like) :=
  if storeFault then .error .other
  else if likesKeyTaken t user_id post_id then
    .error (.ER_DUP_ENTRY "Duplicate entry for key \x27likes.user_id\x27")
  else .ok (t ++ [⟨user_id, post_id⟩])

/-- The body `{ liked, message }` of the like handler's reply. -/
structure LikeBody where
  liked : Bool
  message : String
deriving DecidableEq, Repr

/-- Handler `app.post('/api/posts/:postId/like')`; `fault1` goes to the `SELECT`,
`fault2` to the `DELETE` or `INSERT` that follows it. -/
def toggleLike (fault1 fault2 : Bool) (db : Db) (user : AuthUser) (postId : Nat) :
    Reply LikeBody × Db :=
  match selectLikes fault1 db.likes user.id postId with
  | .error _ => (.error 500 "Ошибка сервера", db)
  | .ok results =>
    if results.length > 0 then
      match deleteLikes fault2 db.likes user.id postId with
      | .error _ => (.error 500 "Ошибка сервера", db)
      | .ok t => (.json ⟨false, "Лайк убран"⟩, { db with likes := t })
    else
      match insertLike fault2 db.likes user.id postId with
      | .error _ => (.error 500 "Ошибка сервера", db)
      | .ok t => (.json ⟨true, "Лайк поставлен"⟩, { db with likes := t })

/-- The likes relation as a set of (user_id, post_id) pairs. -/
def likesRelation (db : Db) : Finset (Nat × Nat) :=
  (db.likes.map (fun l => (l.user_id, l.post_id))).toFinset

/-! ## Messages -/

/-- The statement `INSERT INTO messages (sender_id, receiver_id, message) VALUES (?, ?, ?)`
against the table declared in the source: the three columns are `NOT NULL`, `sender_id`
and `receiver_id` reference `users(id)`, `id` is `AUTO_INCREMENT` and `created_at` is the
store's clock.  `sender_id` is the caller's id, a number; `receiver_id` and `message` are
the raw values of the request body, which the store converts for its columns.  The result
carries `insertId`. -/
def insertMessage (rt : Runtime) (storeFault : Bool) (now : Nat) (db : Db) (sender_id : Nat)
    (receiver_id message : JsValue) : Except DbError (Db × Nat) :=
  if storeFault then .error .other
  else
    match rt.toInt receiver_id with
    | .rejected => .error .ER_TRUNCATED_WRONG_VALUE_FOR_FIELD
    | .null => .error .ER_BAD_NULL_ERROR
    | .value r =>
      match rt.toText message with
      | .rejected => .error .ER_TRUNCATED_WRONG_VALUE_FOR_FIELD
      | .null => .error .ER_BAD_NULL_ERROR
      | .value text =>
        if db.users.any (fun u => u.id == sender_id) && db.users.any (fun u => u.id == r) then
          .ok ({ db with
                  messages := db.messages ++ [⟨db.messagesNextId, sender_id, r, text, now⟩],
                  messagesNextId := db.messagesNextId + 1 },
               db.messagesNextId)
        else .error .ER_NO_REFERENCED_ROW

/-- The object `messageData`: the reply of the send handler and the payload of the
`new_message` event.  `receiver_id` and `message` are the raw values of the request
body. -/
structure MessageData where
  id : Nat
  sender_id : Nat
  receiver_id : JsValue
  message : JsValue
  sender_name : String
  created_at : Nat
deriving DecidableEq, Repr

/-- Handler `app.post('/api/messages')`.  `receiver_id` and `message` are the fields of
`req.body` (`undefined` when missing); `events` is the log of
`io.emit('new_message', _)` calls, oldest first; `now` is the store's clock and `jsNow`
the value of `new Date()`. -/
def sendMessage (rt : Runtime) (storeFault : Bool) (now jsNow : Nat) (db : Db)
    (events : List MessageData) (user : AuthUser) (receiver_id message : JsValue) :
    Reply MessageData × Db × List MessageData :=
  match insertMessage rt storeFault now db user.id receiver_id message with
  | .error _ => (.error 500 "Ошибка сервера", db, events)
  | .ok (db1, insertId) =>
    let messageData : MessageData :=
      ⟨insertId, user.id, receiver_id, message, user.username, jsNow⟩
    (.json messageData, db1, events ++ [messageData])

/-- A row of the conversation query: `m.*` and `u.username as sender_name`. -/
structure MessageRow where
  id : Nat
  sender_id : Nat
  receiver_id : Nat
  message : String
  created_at : Nat
  sender_name : String
deriving DecidableEq, Repr

/-- The columns `m.*` of a conversation row. -/
def MessageRow.toMessage (r : MessageRow) : Message :=
  ⟨r.id, r.sender_id, r.receiver_id, r.message, r.created_at⟩

/-- The condition `(m.sender_id = ? AND m.receiver_id = ?) OR (m.sender_id = ? AND
m.receiver_id = ?)` with the parameters `[p1, p2, p3, p4]`. -/
def conversationWhere (p1 p2 p3 p4 : Nat) (m : Message) : Bool :=
  (m.sender_id == p1 && m.receiver_id == p2) || (m.sender_id == p3 && m.receiver_id == p4)

/-- The part `FROM messages m JOIN users u ON m.sender_id = u.id WHERE ...` of the
conversation query, projected to `m.*, u.username as sender_name`. -/
def conversationJoin (db : Db) (p1 p2 p3 p4 : Nat) : List MessageRow :=
  (db.messages.filter (conversationWhere p1 p2 p3 p4)).flatMap (fun m =>
    (db.users.filter (fun u => m.sender_id == u.id)).map (fun u =>
      ⟨m.id, m.sender_id, m.receiver_id, m.message, m.created_at, u.username⟩))

/-- The order of `ORDER BY m.created_at ASC`. -/
def createdAtLe (a b : MessageRow) : Prop := a.created_at ≤ b.created_at

instance : DecidableRel createdAtLe := fun a b => Nat.decLe a.created_at b.created_at

instance : IsTotal MessageRow createdAtLe :=
  ⟨fun a b => Nat.le_total a.created_at b.created_at⟩

instance : IsTrans MessageRow createdAtLe :=
  ⟨fun _ _ _ hab hbc => Nat.le_trans hab hbc⟩

/-- The conversation query of `app.get('/api/messages/:userId')`. -/
def selectConversation (storeFault : Bool) (db : Db) (p1 p2 p3 p4 : Nat) :
    Except DbError (List MessageRow) :=
  if storeFault then .error .other
  else .ok ((conversationJoin db p1 p2 p3 p4).insertionSort createdAtLe)

/-- Handler `app.get('/api/messages/:userId')`. -/
def getMessages (storeFault : Bool) (db : Db) (user : AuthUser) (userId : Nat) :
    Reply (List MessageRow) :=
  match selectConversation storeFault db user.id userId userId user.id with
  | .error _ => .error 500 "Ошибка сервера"
  | .ok results => .json results

/-- The constraints the source declares on `users` and `messages`: `users.id` is a
primary key and `messages.sender_id` references `users(id)`. -/
def Db.Consistent (db : Db) : Prop :=
  (db.users.map (fun u => u.id)).Nodup ∧
  ∀ m ∈ db.messages, ∃ u ∈ db.users, u.id = m.sender_id

/-! ## The token check -/

/-- What `authenticateToken` does with a request: answer with a bare status, or set
`req.user` and call `next()`. -/
inductive AuthOutcome where
  | sendStatus (code : Nat)
  | next (user : AuthUser)
deriving DecidableEq, Repr

/-- The expression `authHeader && authHeader.split(' ')[1]`: `none` is `undefined`. -/
def headerToken (authHeader : Option String) : Option String :=
  match authHeader with
  | none => none
  | some h => if h.data.isEmpty then some h else (jsSplit h ' ')[1]?

/-- Middleware `authenticateToken`.  `verify token secret` is `jwt.verify`: the signed
payload, or an error; `secret` is `process.env.JWT_SECRET`. -/
def authenticateToken (verify : String → String → Except Unit AuthUser) (secret : String)
    (authHeader : Option String) : AuthOutcome :=
  let token := headerToken authHeader
  if falsy token then .sendStatus 401
  else
    match verify (token.getD "") secret with
    | .error _ => .sendStatus 403
    | .ok user => .next user

/-- What a protected route sends: the bare status of the token check, or the reply of
the handler. -/
inductive RouteReply (α : Type) where
  | sendStatus (code : Nat)
  | handled (reply : α)
deriving DecidableEq, Repr

/-- A route `app.METHOD(path, authenticateToken, handler)`. -/
def protectedRoute {α : Type} (verify : String → String → Except Unit AuthUser)
    (secret : String) (authHeader : Option String) (handler : AuthUser → α) : RouteReply α :=
  match authenticateToken verify secret authHeader with
  | .sendStatus code => .sendStatus code
  | .next user => .handled (handler user)

/-! ## Registration and login -/

/-- The store's duplicate-entry message for a value and a key name. -/
def dupEntryMessage (value key : String) : String :=
  "Duplicate entry \x27" ++ value ++ "\x27 for key \x27" ++ key ++ "\x27"

/-- The statement `INSERT INTO users (username, email, password) VALUES (?, ?, ?)` against
the table declared in the source: `username` and `email` are `UNIQUE` (their keys carry
the column names, the key of `username` is checked first), `id` is `AUTO_INCREMENT`. -/
def insertUser (storeFault : Bool) (now : Nat) (db : Db) (username email password : String) :
    Except DbError Db :=
  if storeFault then .error .other
  else if db.users.any (fun u => u.username == username) then
    .error (.ER_DUP_ENTRY (dupEntryMessage username "username"))
  else if db.users.any (fun u => u.email == email) then
    .error (.ER_DUP_ENTRY (dupEntryMessage email "email"))
  else
    .ok { db with
          users := db.users ++ [⟨db.usersNextId, username, email, password, none, none, none, now⟩],
          usersNextId := db.usersNextId + 1 }

/-- Handler `app.post('/api/register')`.  `hash` is `bcrypt.hash(_, 10)`. -/
def register (hash : String → String) (storeFault : Bool) (now : Nat) (db : Db)
    (username email password : Option String) : Reply String × Db :=
  if falsy username || falsy email || falsy password then
    (.error 400 "Все поля обязательны", db)
  else
    let hashedPassword := hash (password.getD "")
    match insertUser storeFault now db (username.getD "") (email.getD "") hashedPassword with
    | .error err =>
      match err with
      | .ER_DUP_ENTRY sqlMessage =>
        if jsIncludes sqlMessage "username" then
          (.error 400 "Пользователь с таким именем уже существует", db)
        else if jsIncludes sqlMessage "email" then
          (.error 400 "Пользователь с таким email уже существует", db)
        else (.error 400 "Ошибка регистрации", db)
      | _ => (.error 400 "Ошибка регистрации", db)
    | .ok db1 => (.json "Пользователь создан", db1)

/-- The object `user` of the login reply. -/
structure PublicUser where
  id : Nat
  username : String
  email : String
  avatar : Option String
  bio : Option String
  status : Option String
deriving DecidableEq, Repr

/-- The body `{ token, user }` of the login reply. -/
structure LoginBody where
  token : String
  user : PublicUser
deriving DecidableEq, Repr

/-- The statement `SELECT * FROM users WHERE email = ?`. -/
def selectUsersByEmail (storeFault : Bool) (db : Db) (email : String) :
    Except DbError (List User) :=
  if storeFault then .error .other
  else .ok (db.users.filter (fun u => u.email == email))

/-- Handler `app.post('/api/login')`.  `compare` is `bcrypt.compare`; `sign id username
secret` is `jwt.sign` of the payload made of `id` and `username`. -/
def login (compare : String → String → Bool) (sign : Nat → String → String → String)
    (secret : String) (storeFault : Bool) (db : Db) (email password : Option String) :
    Reply LoginBody :=
  if falsy email || falsy password then .error 400 "Все поля обязательны"
  else
    match selectUsersByEmail storeFault db (email.getD "") with
    | .error _ => .error 500 "Ошибка сервера"
    | .ok results =>
      match results with
      | [] => .error 400 "Пользователь не найден"
      | user :: _ =>
        if !compare (password.getD "") user.password then .error 400 "Неверный пароль"
        else
          .json ⟨sign user.id user.username secret,
                 ⟨user.id, user.username, user.email, user.avatar, user.bio, user.status⟩⟩

/-! ## User search -/

/-- Equality of two characters under a case-insensitive collation. -/
def ciEq (a b : Char) : Bool :=
  a.toLower == b.toLower

/-- The operator `text LIKE pattern` of the store under a case-insensitive collation:
`%` stands for any run of characters, `_` for any one character, and a backslash makes
the character after it stand for itself. -/
def likeMatch : List Char → List Char → Bool
  | [], t => t.isEmpty
  | '%' :: p, t => t.tails.any (fun s => likeMatch p s)
  | '_' :: p, t =>
    match t with
    | [] => false
    | _ :: t1 => likeMatch p t1
  | '\\' :: c :: p, t =>
    match t with
    | [] => false
    | d :: t1 => ciEq c d && likeMatch p t1
  | c :: p, t =>
    match t with
    | [] => false
    | d :: t1 => ciEq c d && likeMatch p t1

/-- The test `text LIKE pattern` on strings. -/
def sqlLike (text pattern : String) : Bool :=
  likeMatch pattern.data text.data

/-- A row of the search query. -/
structure SearchRow where
  id : Nat
  username : String
  email : String
  avatar : Option String
  friend_status : Option FriendStatus
  request_direction : Option String
deriving DecidableEq, Repr

/-- The join condition `(f.user_id = ? AND f.friend_id = u.id) OR (f.friend_id = ? AND
f.user_id = u.id)`, both parameters being the caller's id. -/
def searchJoinOn (caller : Nat) (u : User) (f : Friend) : Bool :=
  (f.user_id == caller && f.friend_id == u.id) || (f.friend_id == caller && f.user_id == u.id)

/-- The expression `CASE WHEN f.user_id = ? THEN 'sent' WHEN f.friend_id = ? THEN 'received'
ELSE NULL END`. -/
def requestDirection (caller : Nat) (f : Friend) : Option String :=
  if f.user_id == caller then some "sent"
  else if f.friend_id == caller then some "received"
  else none

/-- The rows of `users u LEFT JOIN friends f ON ...` for one user: one row for each
matching edge, or one row with `NULL` for `f` when there is none. -/
def searchLeftJoin (caller : Nat) (friends : List Friend) (u : User) :
    List (User × Option Friend) :=
  match friends.filter (searchJoinOn caller u) with
  | [] => [(u, none)]
  | fs => fs.map (fun f => (u, some f))

/-- The condition `(u.username LIKE ? OR u.email LIKE ?) AND u.id != ?`. -/
def searchWhere (pattern : String) (caller : Nat) (u : User) : Bool :=
  (sqlLike u.username pattern || sqlLike u.email pattern) && u.id != caller

/-- The selected columns of one joined row. -/
def searchProject (caller : Nat) (row : User × Option Friend) : SearchRow :=
  ⟨row.1.id, row.1.username, row.1.email, row.1.avatar,
   row.2.map (fun f => f.status), row.2.bind (requestDirection caller)⟩

/-- The search query with the parameters `[id, id, id, id, pattern, pattern, id]`. -/
def selectSearch (storeFault : Bool) (db : Db) (caller : Nat) (pattern : String) :
    Except DbError (List SearchRow) :=
  if storeFault then .error .other
  else
    .ok ((((db.users.flatMap (searchLeftJoin caller db.friends)).filter
            (fun row => searchWhere pattern caller row.1)).map (searchProject caller)).take 20)

/-- Handler `app.get('/api/users/search')`; `q` is `req.query.q`. -/
def searchUsers (storeFault : Bool) (db : Db) (user : AuthUser) (q : Option String) :
    Reply (List SearchRow) :=
  if falsy q || jsLength (trimChars (q.getD "").data) < 2 then
    .error 400 "Запрос должен содержать минимум 2 символа"
  else
    match selectSearch storeFault db user.id ("%" ++ q.getD "" ++ "%") with
    | .error _ => .error 500 "Ошибка сервера"
    | .ok results => .json results

/-- The claim's test on a returned row: `q` is a substring of the text, letter case
ignored. -/
def includesIgnoringCase (text q : String) : Bool :=
  includesChars (text.data.map Char.toLower) (q.data.map Char.toLower)

/-! ## Invariants and sample data -/

/-- No edge of the table joins a user to themselves. -/
def NoSelfEdge (db : Db) : Prop :=
  ∀ f ∈ db.friends, f.user_id ≠ f.friend_id

/-- The key (requester, target) of every row of `friends`, in table order. -/
def friendKeys (db : Db) : List (Nat × Nat) :=
  db.friends.map (fun f => (f.user_id, f.friend_id))


/-- A caller with id 1. -/
def ann : AuthUser := ⟨1, "ann", 0⟩

/-- A caller with id 2. -/
def bob : AuthUser := ⟨2, "bob", 0⟩

/-- A store with no rows. -/
def emptyDb : Db := ⟨[], 1, [], 1, [], []⟩

/-- One call of a handler that writes to the store, with what the environment supplies
to it (store faults, clocks). -/
inductive Call where
  | register (storeFault : Bool) (now : Nat) (username email password : Option String)
  | sendMessage (storeFault : Bool) (now jsNow : Nat) (user : AuthUser)
      (receiver_id message : JsValue)
  | friend (call : FriendCall)
  | toggleLike (fault1 fault2 : Bool) (user : AuthUser) (postId : Nat)

/-- The store after one call; `hash` is `bcrypt.hash(_, 10)`. -/
def Call.run (rt : Runtime) (hash : String → String) (db : Db) : Call → Db
  | .register sf now username email password =>
    (AppChill.register hash sf now db username email password).2
  | .sendMessage sf now jsNow user receiver_id message =>
    (AppChill.sendMessage rt sf now jsNow db [] user receiver_id message).2.1
  | .friend call => call.run rt db
  | .toggleLike f1 f2 user postId => (AppChill.toggleLike f1 f2 db user postId).2

/-- The store after a sequence of calls, first call first. -/
def runCalls (rt : Runtime) (hash : String → String) (db : Db) (calls : List Call) : Db :=
  calls.foldl (Call.run rt hash) db

/-- The declared constraints together with the state of the `AUTO_INCREMENT` counter of
`users`: every id in use is below the next id. -/
def Db.WellFormed (db : Db) : Prop :=
  db.Consistent ∧ ∀ u ∈ db.users, u.id < db.usersNextId

/-- The store after user 2 has sent a friend request to user 1. -/
def dbBobAsked : Db :=
  runFriendCalls jsMysql emptyDb [.request false 0 bob "1"]

/-- A store with three users, the accepted edge 3→1 and the pending edge 2→3. -/
def dbThreeUsers : Db :=
  ⟨[⟨1, "ann", "ann@x.io", "h1", none, none, none, 1⟩,
    ⟨2, "bob", "bob@x.io", "h2", none, none, none, 2⟩,
    ⟨3, "cyd", "cyd@x.io", "h3", none, none, none, 3⟩], 4,
   [], 1,
   [⟨3, 1, .accepted, 4⟩, ⟨2, 3, .pending, 5⟩],
   []⟩

/-- The broadcast event `ev` corresponds to a row of `messages`: same id and sender, and
the receiver and text of the row are what the store converts those of the event to. -/
def EventStored (rt : Runtime) (db : Db) (ev : MessageData) : Prop :=
  ∃ m ∈ db.messages, m.id = ev.id ∧ m.sender_id = ev.sender_id ∧
    rt.toInt ev.receiver_id = .value m.receiver_id ∧ rt.toText ev.message = .value m.message

/-- The three users of `dbThreeUsers` with four stored messages, not in time order:
two between users 1 and 2, one from 3 to 2 and one from 1 to 3. -/
def dbChat : Db :=
  { dbThreeUsers with
    messages := [⟨1, 1, 2, "hi", 30⟩, ⟨2, 3, 2, "yo", 20⟩, ⟨3, 2, 1, "hello", 10⟩,
                 ⟨4, 1, 3, "hey", 5⟩],
    messagesNextId := 5 }

/-- A toy signer for examples: the token is the username, a dot and the secret. -/
def toySign (_id : Nat) (username secret : String) : String :=
  username ++ "." ++ secret

/-- A toy verifier for examples: it knows the token of user 1 under the secret `s3cret`. -/
def toyVerify (token secret : String) : Except Unit AuthUser :=
  if token == "ann.s3cret" && secret == "s3cret" then .ok ⟨1, "ann", 0⟩ else .error ()

/-- A toy password check for examples: the stored hash is `h` followed by the password. -/
def toyCompare (password hashed : String) : Bool :=
  "h" ++ password == hashed

/-- A store whose only user is user 1, `ann`, with the password `pw`. -/
def dbAnn : Db :=
  ⟨[⟨1, "ann", "ann@x.io", "hpw", none, none, none, 1⟩], 2, [], 1, [], []⟩

/-- A store whose only user is `ann` with the email `username@x.io`. -/
def dbMail : Db :=
  ⟨[⟨1, "ann", "username@x.io", "hpw", none, none, none, 1⟩], 2, [], 1, [], []⟩

/-- A toy password hash for examples: `h` followed by the password. -/
def toyHash (password : String) : String :=
  "h" ++ password

/-! # Theorems -/

/-! ## Friends -/

theorem removeFriend_eq (db : Db) (user : AuthUser) (userId : Nat) :
    removeFriend false db user userId =
      (.json "Удалено из друзей",
       { db with friends := db.friends.filter (fun f => !isEdgeBetween user.id userId f) }) := by
  simp [removeFriend, deleteFriend]

theorem isEdgeBetween_iff (a b : Nat) (f : Friend) :
    isEdgeBetween a b f = true ↔
      (f.user_id = a ∧ f.friend_id = b) ∨ (f.user_id = b ∧ f.friend_id = a) := by
  simp [isEdgeBetween]

theorem isEdgeBetween_eq_false_iff (a b : Nat) (f : Friend) :
    isEdgeBetween a b f = false ↔
      ¬ (f.user_id = a ∧ f.friend_id = b) ∧ ¬ (f.user_id = b ∧ f.friend_id = a) := by
  rw [← Bool.not_eq_true, isEdgeBetween_iff, not_or]

/-- C4: without a store error the remove handler always answers with success; afterwards
no edge joins the caller and `userId` in either direction, every other edge is kept with
its multiplicity and order, the other tables are untouched, and a second call answers
with success again and changes nothing. -/
theorem removeFriend_idempotent (db : Db) (user : AuthUser) (userId : Nat) :
    (removeFriend false db user userId).1 = .json "Удалено из друзей" ∧
    (∀ f ∈ (removeFriend false db user userId).2.friends,
      ¬ (f.user_id = user.id ∧ f.friend_id = userId) ∧
      ¬ (f.user_id = userId ∧ f.friend_id = user.id)) ∧
    (∀ f : Friend, ¬ (f.user_id = user.id ∧ f.friend_id = userId) →
      ¬ (f.user_id = userId ∧ f.friend_id = user.id) →
      (removeFriend false db user userId).2.friends.count f = db.friends.count f) ∧
    (removeFriend false db user userId).2.friends.Sublist db.friends ∧
    (removeFriend false db user userId).2 =
      { db with friends := (removeFriend false db user userId).2.friends } ∧
    removeFriend false (removeFriend false db user userId).2 user userId =
      (.json "Удалено из друзей", (removeFriend false db user userId).2) := by
  rw [removeFriend_eq]
  refine ⟨rfl, ?_, ?_, ?_, rfl, ?_⟩
  · intro f hf
    have h := (List.mem_filter.mp hf).2
    rw [Bool.not_eq_true'] at h
    exact (isEdgeBetween_eq_false_iff _ _ _).mp h
  · intro f h1 h2
    have h : (!isEdgeBetween user.id userId f) = true := by
      rw [Bool.not_eq_true']
      exact (isEdgeBetween_eq_false_iff _ _ _).mpr ⟨h1, h2⟩
    exact List.count_filter h
  · exact List.filter_sublist _
  · rw [removeFriend_eq]
    simp [List.filter_filter]

theorem acceptRow_key (a b : Nat) (f : Friend) :
    (acceptRow a b f).user_id = f.user_id ∧ (acceptRow a b f).friend_id = f.friend_id := by
  unfold acceptRow
  split <;> simp

theorem friendsKeyTaken_iff (t : List Friend) (a b : Nat) :
    friendsKeyTaken t a b = true ↔ ∃ f ∈ t, f.user_id = a ∧ f.friend_id = b := by
  simp [friendsKeyTaken]

theorem sendFriendRequest_cases (rt : Runtime) (sf : Bool) (now : Nat) (db : Db)
    (user : AuthUser) (userId : String) :
    (sendFriendRequest rt sf now db user userId).2 = db ∨
    ∃ fid, rt.looseEq userId user.id = false ∧ rt.toInt (.string userId) = .value fid ∧
      friendsKeyTaken db.friends user.id fid = false ∧
      (sendFriendRequest rt sf now db user userId).2 =
        { db with friends := db.friends ++ [⟨user.id, fid, .pending, now⟩] } := by
  unfold sendFriendRequest insertFriend
  cases hg : rt.looseEq userId user.id
  · cases sf
    · cases hc : rt.toInt (.string userId) with
      | null => left; simp
      | rejected => left; simp
      | value fid =>
        cases hk : friendsKeyTaken db.friends user.id fid
        · right
          exact ⟨fid, rfl, rfl, hk, by simp [hk]⟩
        · left
          simp [hk]
    · left
      simp
  · left
    simp

theorem acceptFriendRequest_cases (sf : Bool) (db : Db) (user : AuthUser) (userId : Nat) :
    (acceptFriendRequest sf db user userId).2 = db ∨
    (acceptFriendRequest sf db user userId).2 =
      { db with friends := db.friends.map (acceptRow userId user.id) } := by
  unfold acceptFriendRequest updateFriendAccepted
  cases sf
  · right
    simp only [Bool.false_eq_true, if_false]
    split <;> rfl
  · left
    simp

theorem removeFriend_cases (sf : Bool) (db : Db) (user : AuthUser) (userId : Nat) :
    (removeFriend sf db user userId).2 = db ∨
    (removeFriend sf db user userId).2 =
      { db with friends := db.friends.filter (fun f => !isEdgeBetween user.id userId f) } := by
  cases sf
  · right
    rw [removeFriend_eq]
  · left
    simp [removeFriend, deleteFriend]

theorem noSelfEdge_run (rt : Runtime) (db : Db) (call : FriendCall)
    (hcoh : ∀ s n, rt.toInt (.string s) = .value n → rt.looseEq s n = true)
    (h : NoSelfEdge db) : NoSelfEdge (call.run rt db) := by
  cases call with
  | request sf now user userId =>
    rcases sendFriendRequest_cases rt sf now db user userId with h1 | ⟨fid, hg, hc, -, h1⟩
    · simpa [FriendCall.run, h1] using h
    · intro f hf
      simp only [FriendCall.run, h1, List.mem_append, List.mem_singleton] at hf
      rcases hf with hf | rfl
      · exact h f hf
      · intro e
        simp only at e
        have hloose := hcoh userId fid hc
        rw [← e, hg] at hloose
        exact absurd hloose (by simp)
  | accept sf user userId =>
    rcases acceptFriendRequest_cases sf db user userId with h1 | h1
    · simpa [FriendCall.run, h1] using h
    · intro f hf
      simp only [FriendCall.run, h1, List.mem_map] at hf
      obtain ⟨g, hg, rfl⟩ := hf
      rw [(acceptRow_key _ _ g).1, (acceptRow_key _ _ g).2]
      exact h g hg
  | remove sf user userId =>
    rcases removeFriend_cases sf db user userId with h1 | h1
    · simpa [FriendCall.run, h1] using h
    · intro f hf
      simp only [FriendCall.run, h1] at hf
      exact h f (List.mem_filter.mp hf).1

theorem noSelfEdge_runFriendCalls (rt : Runtime) (calls : List FriendCall) (db : Db)
    (hcoh : ∀ s n, rt.toInt (.string s) = .value n → rt.looseEq s n = true)
    (h : NoSelfEdge db) : NoSelfEdge (runFriendCalls rt db calls) := by
  induction calls generalizing db with
  | nil => simpa [runFriendCalls] using h
  | cons call rest ih =>
    simp only [runFriendCalls, List.foldl_cons]
    exact ih _ (noSelfEdge_run rt db call hcoh h)

theorem sendFriendRequest_guard (rt : Runtime) (sf : Bool) (now : Nat) (db : Db)
    (user : AuthUser) (userId : String) (h : rt.looseEq userId user.id = true) :
    sendFriendRequest rt sf now db user userId =
      (.error 400 "Нельзя добавить себя в друзья", db) := by
  simp [sendFriendRequest, h]

theorem sendFriendRequest_self_edge (rt : Runtime) (now : Nat) (db : Db) (user : AuthUser)
    (userId : String) (hguard : rt.looseEq userId user.id = false)
    (hstore : rt.toInt (.string userId) = .value user.id)
    (hfree : friendsKeyTaken db.friends user.id user.id = false) :
    sendFriendRequest rt false now db user userId =
      (.json "Заявка в друзья отправлена",
       { db with friends := db.friends ++ [⟨user.id, user.id, .pending, now⟩] }) := by
  simp [sendFriendRequest, insertFriend, hguard, hstore, hfree]

/-- C10 on the code: user 1 calls the send-request handler with the route parameter `1.4`.
JavaScript's `"1.4" == 1` is false, so the guard does not answer 400; the store rounds
the string to 1 for the column `friend_id`, and the edge 1→1 is stored: a state reached
from the empty friends table by one send-request holds an edge whose requester equals its
target. -/
theorem sendFriendRequest_rounded_self_edge :
    jsMysql.looseEq "1.4" ann.id = false ∧
    jsMysql.toInt (.string "1.4") = .value ann.id ∧
    sendFriendRequest jsMysql false 7 emptyDb ann "1.4" =
      (.json "Заявка в друзья отправлена",
       { emptyDb with friends := [⟨1, 1, .pending, 7⟩] }) ∧
    (runFriendCalls jsMysql emptyDb [.request false 7 ann "1.4"]).friends =
      [⟨1, 1, .pending, 7⟩] ∧
    ¬ NoSelfEdge (runFriendCalls jsMysql emptyDb [.request false 7 ann "1.4"]) := by
  refine ⟨by decide, by decide, by decide, by decide, ?_⟩
  intro h
  exact h ⟨1, 1, .pending, 7⟩ (by decide) rfl

theorem friendsKeyTaken_eq_false_iff (t : List Friend) (a b : Nat) :
    friendsKeyTaken t a b = false ↔ ¬ ∃ f ∈ t, f.user_id = a ∧ f.friend_id = b := by
  rw [← Bool.not_eq_true, friendsKeyTaken_iff]

theorem names_guard (rt : Runtime) (s : String) (n m : Nat) (h : rt.Names s n)
    (hne : m ≠ n) : rt.looseEq s m = false := by
  rw [h.1 m]
  simp [hne]

theorem jsMysql_names (s : String) (n : Nat) (hjs : jsStringToNat s = some n)
    (hsql : mysqlToInt (.string s) = .value n) : jsMysql.Names s n := by
  refine ⟨?_, hsql⟩
  intro m
  show (jsStringToNat s == some m) = decide (m = n)
  rw [hjs]
  by_cases e : m = n
  · simp [e]
  · have e1 : ¬ n = m := fun h => e h.symm
    simp [e, e1]

theorem sendFriendRequest_fresh (rt : Runtime) (db : Db) (user : AuthUser) (userId : String)
    (fid now : Nat) (hguard : rt.looseEq userId user.id = false)
    (hstore : rt.toInt (.string userId) = .value fid)
    (hfree : ¬ ∃ f ∈ db.friends, f.user_id = user.id ∧ f.friend_id = fid) :
    sendFriendRequest rt false now db user userId =
      (.json "Заявка в друзья отправлена",
       { db with friends := db.friends ++ [⟨user.id, fid, .pending, now⟩] }) := by
  have hk := (friendsKeyTaken_eq_false_iff db.friends user.id fid).mpr hfree
  simp [sendFriendRequest, insertFriend, hguard, hstore, hk]

theorem sendFriendRequest_taken (rt : Runtime) (db : Db) (user : AuthUser) (userId : String)
    (fid now : Nat) (hguard : rt.looseEq userId user.id = false)
    (hstore : rt.toInt (.string userId) = .value fid)
    (htaken : ∃ f ∈ db.friends, f.user_id = user.id ∧ f.friend_id = fid) :
    sendFriendRequest rt false now db user userId =
      (.error 400 "Заявка уже отправлена", db) := by
  have hk := (friendsKeyTaken_iff db.friends user.id fid).mpr htaken
  simp [sendFriendRequest, insertFriend, hguard, hstore, hk]

theorem friendKeys_nodup_run (rt : Runtime) (db : Db) (call : FriendCall)
    (h : (friendKeys db).Nodup) : (friendKeys (call.run rt db)).Nodup := by
  cases call with
  | request sf now user userId =>
    rcases sendFriendRequest_cases rt sf now db user userId with h1 | ⟨fid, -, -, hk, h1⟩
    · simpa [FriendCall.run, h1] using h
    · have hfree := (friendsKeyTaken_eq_false_iff _ _ _).mp hk
      simp only [FriendCall.run, h1, friendKeys, List.map_append, List.map_cons, List.map_nil]
      refine List.Nodup.append h (List.nodup_singleton _) ?_
      intro k hk1 hk2
      rw [List.mem_singleton] at hk2
      subst hk2
      obtain ⟨f, hf, hfk⟩ := List.mem_map.mp hk1
      exact hfree ⟨f, hf, by simpa using hfk⟩
  | accept sf user userId =>
    rcases acceptFriendRequest_cases sf db user userId with h1 | h1
    · simpa [FriendCall.run, h1] using h
    · have hkeys : friendKeys (FriendCall.run rt db (.accept sf user userId)) =
          friendKeys db := by
        simp only [FriendCall.run, h1, friendKeys, List.map_map]
        apply List.map_congr_left
        intro g _
        simp [(acceptRow_key userId user.id g).1, (acceptRow_key userId user.id g).2]
      rw [hkeys]
      exact h
  | remove sf user userId =>
    rcases removeFriend_cases sf db user userId with h1 | h1
    · simpa [FriendCall.run, h1] using h
    · simp only [FriendCall.run, h1, friendKeys]
      exact h.sublist ((List.filter_sublist _).map _)

theorem friendKeys_nodup_runFriendCalls (rt : Runtime) (calls : List FriendCall) (db : Db)
    (h : (friendKeys db).Nodup) : (friendKeys (runFriendCalls rt db calls)).Nodup := by
  induction calls generalizing db with
  | nil => simpa [runFriendCalls] using h
  | cons call rest ih =>
    simp only [runFriendCalls, List.foldl_cons]
    exact ih _ (friendKeys_nodup_run rt db call h)

/-- C2 as stated fails: in the store reached from the empty one by the request 2→1, the
edge 2→1 exists, yet the request 1→2 is answered with success and both edges coexist. -/
theorem sendFriendRequest_reverse_edge_accepted :
    dbBobAsked.friends = [⟨2, 1, .pending, 0⟩] ∧
    sendFriendRequest jsMysql false 1 dbBobAsked ann "2" ≠
      (.error 400 "Заявка уже отправлена", dbBobAsked) ∧
    sendFriendRequest jsMysql false 1 dbBobAsked ann "2" =
      (.json "Заявка в друзья отправлена",
       { dbBobAsked with friends := [⟨2, 1, .pending, 0⟩, ⟨1, 2, .pending, 1⟩] }) ∧
    (runFriendCalls jsMysql emptyDb
      [.request false 0 bob "1", .request false 1 ann "2"]).friends =
      [⟨2, 1, .pending, 0⟩, ⟨1, 2, .pending, 1⟩] := by
  decide

/-- C2, amended: let A and B be distinct users and `userId` a route parameter that names
B.  When no store fault occurs and the table already holds an edge from A to B, the
send-request handler called by A answers 400 'Заявка уже отправлена' and leaves the store
as it was; when it holds no such edge (an edge in the reverse direction does not count)
the request is stored as a pending edge after the existing rows; and in every store
reached from an empty friends table no ordered pair is the key of two rows. -/
theorem sendFriendRequest_conflict_same_direction (rt : Runtime) (db : Db) (A B : AuthUser)
    (userId : String) (now : Nat) (calls : List FriendCall) :
    (A.id ≠ B.id → rt.Names userId B.id →
      (∃ f ∈ db.friends, f.user_id = A.id ∧ f.friend_id = B.id) →
      sendFriendRequest rt false now db A userId =
        (.error 400 "Заявка уже отправлена", db)) ∧
    (A.id ≠ B.id → rt.Names userId B.id →
      (¬ ∃ f ∈ db.friends, f.user_id = A.id ∧ f.friend_id = B.id) →
      sendFriendRequest rt false now db A userId =
        (.json "Заявка в друзья отправлена",
         { db with friends := db.friends ++ [⟨A.id, B.id, .pending, now⟩] })) ∧
    (db.friends = [] → (friendKeys (runFriendCalls rt db calls)).Nodup) := by
  refine ⟨?_, ?_, ?_⟩
  · intro hne hB h
    exact sendFriendRequest_taken rt db A userId B.id now
      (names_guard rt userId B.id A.id hB hne) hB.2 h
  · intro hne hB h
    exact sendFriendRequest_fresh rt db A userId B.id now
      (names_guard rt userId B.id A.id hB hne) hB.2 h
  · intro h0
    exact friendKeys_nodup_runFriendCalls rt calls db (by simp [friendKeys, h0])

/-- C2, amended, at a concrete input: after the request 2→1, a second request 2→1 is
refused with the conflict reply, the request 1→2 is stored, and the keys stay distinct. -/
theorem sendFriendRequest_conflict_same_direction_witness :
    sendFriendRequest jsMysql false 5 dbBobAsked bob "1" =
      (.error 400 "Заявка уже отправлена", dbBobAsked) ∧
    sendFriendRequest jsMysql false 5 emptyDb ann "2" =
      (.json "Заявка в друзья отправлена",
       { emptyDb with friends := [⟨1, 2, .pending, 5⟩] }) ∧
    (friendKeys (runFriendCalls jsMysql emptyDb
      [.request false 0 bob "1", .request false 1 ann "2", .request false 2 bob "1"])).Nodup :=
  ⟨(sendFriendRequest_conflict_same_direction jsMysql dbBobAsked bob ann "1" 5 []).1
      (by decide) (jsMysql_names "1" 1 (by decide) (by decide))
      ⟨⟨2, 1, .pending, 0⟩, by decide, rfl, rfl⟩,
   (sendFriendRequest_conflict_same_direction jsMysql emptyDb ann bob "2" 5 []).2.1
      (by decide) (jsMysql_names "2" 2 (by decide) (by decide)) (by decide),
   (sendFriendRequest_conflict_same_direction jsMysql emptyDb ann bob "2" 5 _).2.2 rfl⟩

theorem acceptRow_eq_self (a b : Nat) (f : Friend) (h : isPendingEdge a b f = false) :
    acceptRow a b f = f := by
  simp [acceptRow, h]

theorem isPendingEdge_false_of_not_between (a b : Nat) (f : Friend)
    (h : isEdgeBetween a b f = false) :
    isPendingEdge a b f = false ∧ isPendingEdge b a f = false := by
  have h1 := (isEdgeBetween_eq_false_iff a b f).mp h
  constructor
  · rw [← Bool.not_eq_true]
    intro hp
    simp only [isPendingEdge, Bool.and_eq_true, beq_iff_eq] at hp
    exact h1.1 ⟨hp.1.1, hp.1.2⟩
  · rw [← Bool.not_eq_true]
    intro hp
    simp only [isPendingEdge, Bool.and_eq_true, beq_iff_eq] at hp
    exact h1.2 ⟨hp.1.1, hp.1.2⟩

theorem map_acceptRow_eq_self (a b : Nat) (t : List Friend)
    (h : ∀ f ∈ t, isPendingEdge a b f = false) : t.map (acceptRow a b) = t := by
  induction t with
  | nil => rfl
  | cons f rest ih =>
    simp only [List.map_cons]
    rw [acceptRow_eq_self a b f (h f (List.mem_cons_self _ _)),
      ih (fun g hg => h g (List.mem_cons_of_mem _ hg))]

theorem filter_isPendingEdge_eq_nil (a b : Nat) (t : List Friend)
    (h : ∀ f ∈ t, isPendingEdge a b f = false) : t.filter (isPendingEdge a b) = [] := by
  rw [List.filter_eq_nil_iff]
  intro f hf
  rw [h f hf]
  simp

theorem acceptFriendRequest_eq (db : Db) (user : AuthUser) (userId : Nat) :
    acceptFriendRequest false db user userId =
      (if (db.friends.filter (isPendingEdge userId user.id)).length = 0 then
          .error 404 "Заявка не найдена"
        else .json "Заявка принята",
       { db with friends := db.friends.map (acceptRow userId user.id) }) := by
  unfold acceptFriendRequest updateFriendAccepted
  simp only [Bool.false_eq_true, if_false, beq_iff_eq]
  split <;> rfl

theorem acceptRow_cases (a b : Nat) (f : Friend) :
    acceptRow a b f = f ∨
    (f.user_id = a ∧ f.friend_id = b ∧ f.status = .pending ∧
      acceptRow a b f = { f with status := .accepted }) := by
  unfold acceptRow
  by_cases h : isPendingEdge a b f = true
  · right
    have h1 := h
    simp only [isPendingEdge, Bool.and_eq_true, beq_iff_eq] at h1
    exact ⟨h1.1.1, h1.1.2, h1.2, by simp [h]⟩
  · left
    simp [h]

/-- C3: let A and B be distinct users with no edge between them, `userId` a route
parameter that names B, and no store fault.  The request of A is stored as a pending edge
A→B; then (1) the accept handler called by B with A's id answers with success and the
new edge becomes accepted, every earlier row being kept as it was; (2) called instead by A
with B's id it answers 404 and leaves the store as it was, the edge still pending.  In
general the accept handler keeps the number and order of the rows, and a row differs
afterwards only if it was a pending edge from the handler's `userId` to the caller, and
then only in its status, which becomes accepted. -/
theorem accept_after_request (rt : Runtime) (db : Db) (A B : AuthUser) (userId : String)
    (now : Nat) (hne : A.id ≠ B.id) (hB : rt.Names userId B.id)
    (hno : ∀ f ∈ db.friends, isEdgeBetween A.id B.id f = false) :
    sendFriendRequest rt false now db A userId =
      (.json "Заявка в друзья отправлена",
       { db with friends := db.friends ++ [⟨A.id, B.id, .pending, now⟩] }) ∧
    acceptFriendRequest false (sendFriendRequest rt false now db A userId).2 B A.id =
      (.json "Заявка принята",
       { db with friends := db.friends ++ [⟨A.id, B.id, .accepted, now⟩] }) ∧
    acceptFriendRequest false (sendFriendRequest rt false now db A userId).2 A B.id =
      (.error 404 "Заявка не найдена", (sendFriendRequest rt false now db A userId).2) ∧
    (∀ (sf : Bool) (d : Db) (c : AuthUser) (x : Nat),
      (acceptFriendRequest sf d c x).2.friends.length = d.friends.length ∧
      ∀ (i : Nat) (f : Friend), d.friends[i]? = some f →
        (acceptFriendRequest sf d c x).2.friends[i]? = some f ∨
        (f.user_id = x ∧ f.friend_id = c.id ∧ f.status = .pending ∧
          (acceptFriendRequest sf d c x).2.friends[i]? =
            some { f with status := .accepted })) := by
  have hfree : ¬ ∃ f ∈ db.friends, f.user_id = A.id ∧ f.friend_id = B.id := by
    rintro ⟨f, hf, h1, h2⟩
    exact ((isEdgeBetween_eq_false_iff _ _ _).mp (hno f hf)).1 ⟨h1, h2⟩
  have hsend := sendFriendRequest_fresh rt db A userId B.id now
    (names_guard rt userId B.id A.id hB hne) hB.2 hfree
  have hAB : ∀ f ∈ db.friends, isPendingEdge A.id B.id f = false :=
    fun f hf => (isPendingEdge_false_of_not_between _ _ f (hno f hf)).1
  have hBA : ∀ f ∈ db.friends, isPendingEdge B.id A.id f = false :=
    fun f hf => (isPendingEdge_false_of_not_between _ _ f (hno f hf)).2
  have hnew1 : isPendingEdge A.id B.id ⟨A.id, B.id, .pending, now⟩ = true := by
    simp [isPendingEdge]
  have hnew2 : isPendingEdge B.id A.id ⟨A.id, B.id, .pending, now⟩ = false := by
    simp [isPendingEdge, hne]
  refine ⟨hsend, ?_, ?_, ?_⟩
  · rw [hsend, acceptFriendRequest_eq]
    simp only [List.filter_append, List.map_append, filter_isPendingEdge_eq_nil _ _ _ hAB,
      map_acceptRow_eq_self _ _ _ hAB, List.nil_append, List.filter_cons, hnew1, if_true,
      List.filter_nil, List.length_singleton, List.map_cons, List.map_nil, acceptRow]
    simp
  · rw [hsend, acceptFriendRequest_eq]
    simp only [List.filter_append, List.map_append, filter_isPendingEdge_eq_nil _ _ _ hBA,
      map_acceptRow_eq_self _ _ _ hBA, List.nil_append, List.filter_cons, hnew2,
      List.filter_nil, List.length_nil, List.map_cons, List.map_nil, acceptRow]
    simp
  · intro sf d c x
    rcases acceptFriendRequest_cases sf d c x with h1 | h1
    · rw [h1]
      exact ⟨rfl, fun i f hf => Or.inl hf⟩
    · rw [h1]
      refine ⟨by simp, ?_⟩
      intro i f hf
      simp only [List.getElem?_map, hf, Option.map_some']
      rcases acceptRow_cases x c.id f with h2 | ⟨h3, h4, h5, h6⟩
      · left
        rw [h2]
      · right
        exact ⟨h3, h4, h5, by rw [h6]⟩

/-- C3 at a concrete input: the store already holds the accepted edge 3→1 and the pending
edge 2→3; user 1 asks user 2 with the route parameter `2`. -/
theorem accept_after_request_witness :
    sendFriendRequest jsMysql false 9 dbThreeUsers ann "2" =
      (.json "Заявка в друзья отправлена",
       { dbThreeUsers with friends :=
          [⟨3, 1, .accepted, 4⟩, ⟨2, 3, .pending, 5⟩, ⟨1, 2, .pending, 9⟩] }) ∧
    acceptFriendRequest false (sendFriendRequest jsMysql false 9 dbThreeUsers ann "2").2
        bob 1 =
      (.json "Заявка принята",
       { dbThreeUsers with friends :=
          [⟨3, 1, .accepted, 4⟩, ⟨2, 3, .pending, 5⟩, ⟨1, 2, .accepted, 9⟩] }) ∧
    acceptFriendRequest false (sendFriendRequest jsMysql false 9 dbThreeUsers ann "2").2
        ann 2 =
      (.error 404 "Заявка не найдена",
       (sendFriendRequest jsMysql false 9 dbThreeUsers ann "2").2) :=
  have h := accept_after_request jsMysql dbThreeUsers ann bob "2" 9 (by decide)
    (jsMysql_names "2" 2 (by decide) (by decide)) (by decide)
  ⟨h.1, h.2.1, h.2.2.1⟩

/-! ## Likes -/

theorem mem_likesRelation (db : Db) (a b : Nat) :
    (a, b) ∈ likesRelation db ↔ (⟨a, b⟩ : Like) ∈ db.likes := by
  simp only [likesRelation, List.mem_toFinset, List.mem_map, Prod.mk.injEq]
  constructor
  · rintro ⟨l, hl, h1, h2⟩
    cases l
    simp only at h1 h2
    subst h1 h2
    exact hl
  · intro h
    exact ⟨⟨a, b⟩, h, rfl, rfl⟩

theorem isLikeOf_iff (a b : Nat) (l : Like) : isLikeOf a b l = true ↔ l = ⟨a, b⟩ := by
  cases l
  simp [isLikeOf]

theorem likesKeyTaken_iff (t : List Like) (a b : Nat) :
    likesKeyTaken t a b = true ↔ (⟨a, b⟩ : Like) ∈ t := by
  simp only [likesKeyTaken, List.any_eq_true]
  constructor
  · rintro ⟨l, hl, h⟩
    have h1 : isLikeOf a b l = true := h
    rw [isLikeOf_iff] at h1
    subst h1
    exact hl
  · intro h
    exact ⟨⟨a, b⟩, h, by simp⟩

theorem filter_isLikeOf_length_pos_iff (t : List Like) (a b : Nat) :
    0 < (t.filter (isLikeOf a b)).length ↔ (⟨a, b⟩ : Like) ∈ t := by
  rw [List.length_pos_iff_exists_mem]
  constructor
  · rintro ⟨l, hl⟩
    obtain ⟨h1, h2⟩ := List.mem_filter.mp hl
    rw [isLikeOf_iff] at h2
    subst h2
    exact h1
  · intro h
    exact ⟨⟨a, b⟩, List.mem_filter.mpr ⟨h, (isLikeOf_iff a b _).mpr rfl⟩⟩

theorem toggleLike_liked (db : Db) (user : AuthUser) (postId : Nat)
    (h : (⟨user.id, postId⟩ : Like) ∈ db.likes) :
    toggleLike false false db user postId =
      (.json ⟨false, "Лайк убран"⟩,
       { db with likes := db.likes.filter (fun l => !isLikeOf user.id postId l) }) := by
  have hpos := (filter_isLikeOf_length_pos_iff db.likes user.id postId).mpr h
  simp [toggleLike, selectLikes, deleteLikes, hpos]

theorem toggleLike_not_liked (db : Db) (user : AuthUser) (postId : Nat)
    (h : (⟨user.id, postId⟩ : Like) ∉ db.likes) :
    toggleLike false false db user postId =
      (.json ⟨true, "Лайк поставлен"⟩,
       { db with likes := db.likes ++ [⟨user.id, postId⟩] }) := by
  have hpos : ¬ 0 < (db.likes.filter (isLikeOf user.id postId)).length :=
    fun hp => h ((filter_isLikeOf_length_pos_iff db.likes user.id postId).mp hp)
  have hk : likesKeyTaken db.likes user.id postId = false := by
    rw [← Bool.not_eq_true, likesKeyTaken_iff]
    exact h
  simp only [toggleLike, selectLikes, insertLike, Bool.false_eq_true, if_false, gt_iff_lt,
    hpos, hk]

/-- C1: with no store error, the first call of the like handler answers `liked = true`
exactly when the pair (caller, post) was not in the likes relation, and puts the pair in
or takes it out accordingly, leaving every other pair alone; a second call answers
`liked` = (originally liked) and the likes relation is again the original one. -/
theorem toggleLike_twice (db : Db) (user : AuthUser) (postId : Nat) :
    (toggleLike false false db user postId).1 =
      (if (user.id, postId) ∈ likesRelation db then .json ⟨false, "Лайк убран"⟩
       else .json ⟨true, "Лайк поставлен"⟩) ∧
    likesRelation (toggleLike false false db user postId).2 =
      (if (user.id, postId) ∈ likesRelation db then (likesRelation db).erase (user.id, postId)
       else insert (user.id, postId) (likesRelation db)) ∧
    (toggleLike false false (toggleLike false false db user postId).2 user postId).1 =
      (if (user.id, postId) ∈ likesRelation db then .json ⟨true, "Лайк поставлен"⟩
       else .json ⟨false, "Лайк убран"⟩) ∧
    likesRelation (toggleLike false false (toggleLike false false db user postId).2
      user postId).2 = likesRelation db := by
  by_cases h : (⟨user.id, postId⟩ : Like) ∈ db.likes
  · have hrel : (user.id, postId) ∈ likesRelation db := (mem_likesRelation _ _ _).mpr h
    have hgone : (⟨user.id, postId⟩ : Like) ∉
        db.likes.filter (fun l => !isLikeOf user.id postId l) := by
      intro hm
      have := (List.mem_filter.mp hm).2
      simp [isLikeOf] at this
    rw [toggleLike_liked db user postId h, if_pos hrel, if_pos hrel, if_pos hrel]
    rw [toggleLike_not_liked _ user postId hgone]
    refine ⟨rfl, ?_, rfl, ?_⟩
    · ext ⟨a, b⟩
      rw [Finset.mem_erase, mem_likesRelation, mem_likesRelation]
      simp only [List.mem_filter, Bool.not_eq_true', ← Bool.not_eq_true, isLikeOf_iff]
      constructor
      · rintro ⟨h1, h2⟩
        exact ⟨fun e => h2 (by cases e; rfl), h1⟩
      · rintro ⟨h1, h2⟩
        exact ⟨h2, fun e => h1 (by cases e; rfl)⟩
    · ext ⟨a, b⟩
      rw [mem_likesRelation, mem_likesRelation]
      simp only [List.mem_append, List.mem_filter, Bool.not_eq_true', ← Bool.not_eq_true,
        isLikeOf_iff, List.mem_singleton]
      constructor
      · rintro (⟨h1, -⟩ | h1)
        · exact h1
        · rw [h1]
          exact h
      · intro h1
        by_cases e : (⟨a, b⟩ : Like) = ⟨user.id, postId⟩
        · exact Or.inr e
        · exact Or.inl ⟨h1, e⟩
  · have hrel : (user.id, postId) ∉ likesRelation db :=
      fun hm => h ((mem_likesRelation _ _ _).mp hm)
    have hin : (⟨user.id, postId⟩ : Like) ∈ db.likes ++ [⟨user.id, postId⟩] := by simp
    rw [toggleLike_not_liked db user postId h, if_neg hrel, if_neg hrel, if_neg hrel]
    rw [toggleLike_liked _ user postId hin]
    refine ⟨rfl, ?_, rfl, ?_⟩
    · ext ⟨a, b⟩
      rw [Finset.mem_insert, mem_likesRelation, mem_likesRelation]
      simp only [List.mem_append, List.mem_singleton, Prod.mk.injEq, Like.mk.injEq]
      tauto
    · ext ⟨a, b⟩
      rw [mem_likesRelation, mem_likesRelation]
      simp only [List.mem_append, List.mem_filter, Bool.not_eq_true', ← Bool.not_eq_true,
        isLikeOf_iff, List.mem_singleton]
      constructor
      · rintro ⟨h1 | h1, h2⟩
        · exact h1
        · exact absurd h1 h2
      · intro h1
        refine ⟨Or.inl h1, ?_⟩
        intro e
        rw [e] at h1
        exact h h1

/-! ## Messages -/

/-- C6 as stated fails: user 1 sends the body with `receiver_id` 2.6 and `message` `hi`.
The store rounds the receiver to 3 and stores the row (1, 1, 3, `hi`); the event that is
emitted carries the receiver 2.6 of the body, which is not the receiver 3 of the stored
row. -/
theorem sendMessage_event_differs_from_row :
    sendMessage jsMysql false 3 4 dbThreeUsers [] ann (.number "2.6") (.string "hi") =
      (.json ⟨1, 1, .number "2.6", .string "hi", "ann", 4⟩,
       { dbThreeUsers with messages := [⟨1, 1, 3, "hi", 3⟩], messagesNextId := 2 },
       [⟨1, 1, .number "2.6", .string "hi", "ann", 4⟩]) ∧
    (JsValue.number "2.6" ≠ JsValue.number "3") := by
  decide

/-- C6, amended: the send handler either fails at the insert, and then answers 500, emits
nothing and leaves the store as it was; or the insert appends one row to `messages` and
after it exactly one event is appended to the broadcast log, with the id of the new row,
the caller's id as sender (the stored sender as well), the caller's username as sender
name, and the `receiver_id` and `message` of the request body, of which the receiver and
text of the stored row are the store's conversions.  Hence if every earlier event
corresponds in this way to a stored message, so does every event afterwards. -/
theorem sendMessage_broadcast (rt : Runtime) (sf : Bool) (now jsNow : Nat) (db : Db)
    (events : List MessageData) (user : AuthUser) (receiver_id message : JsValue) :
    ((∃ e, insertMessage rt sf now db user.id receiver_id message = .error e) ∧
      sendMessage rt sf now jsNow db events user receiver_id message =
        (.error 500 "Ошибка сервера", db, events)) ∨
    (∃ (row : Message) (ev : MessageData),
      insertMessage rt sf now db user.id receiver_id message =
        .ok ((sendMessage rt sf now jsNow db events user receiver_id message).2.1, row.id) ∧
      (sendMessage rt sf now jsNow db events user receiver_id message).2.1.messages =
        db.messages ++ [row] ∧
      (sendMessage rt sf now jsNow db events user receiver_id message).2.2 =
        events ++ [ev] ∧
      (sendMessage rt sf now jsNow db events user receiver_id message).1 = .json ev ∧
      ev.id = row.id ∧ ev.sender_id = user.id ∧ row.sender_id = user.id ∧
      ev.sender_name = user.username ∧
      ev.receiver_id = receiver_id ∧ ev.message = message ∧
      rt.toInt receiver_id = .value row.receiver_id ∧
      rt.toText message = .value row.message ∧
      ((∀ old ∈ events, EventStored rt db old) →
        ∀ e ∈ (sendMessage rt sf now jsNow db events user receiver_id message).2.2,
          EventStored rt
            (sendMessage rt sf now jsNow db events user receiver_id message).2.1 e)) := by
  unfold sendMessage insertMessage
  cases sf
  · cases hr : rt.toInt receiver_id with
    | null => left; exact ⟨⟨_, rfl⟩, rfl⟩
    | rejected => left; exact ⟨⟨_, rfl⟩, rfl⟩
    | value r =>
      cases ht : rt.toText message with
      | null => left; exact ⟨⟨_, rfl⟩, rfl⟩
      | rejected => left; exact ⟨⟨_, rfl⟩, rfl⟩
      | value text =>
        by_cases hfk : (db.users.any (fun u => u.id == user.id) &&
            db.users.any (fun u => u.id == r)) = true
        · right
          simp only [Bool.false_eq_true, if_false, hfk, if_true]
          refine ⟨⟨db.messagesNextId, user.id, r, text, now⟩,
            ⟨db.messagesNextId, user.id, receiver_id, message, user.username, jsNow⟩,
            rfl, rfl, rfl, rfl, rfl, rfl, rfl, rfl, rfl, rfl, rfl, rfl, ?_⟩
          intro hold e he
          rcases List.mem_append.mp he with h1 | h1
          · obtain ⟨m, hm, hrest⟩ := hold e h1
            exact ⟨m, List.mem_append_left _ hm, hrest⟩
          · rw [List.mem_singleton] at h1
            subst h1
            exact ⟨⟨db.messagesNextId, user.id, r, text, now⟩,
              List.mem_append_right _ (List.mem_singleton.mpr rfl), rfl, rfl, hr, ht⟩
        · left
          simp only [Bool.false_eq_true, if_false, hfk]
          exact ⟨⟨_, rfl⟩, trivial⟩
  · left
    exact ⟨⟨_, rfl⟩, rfl⟩

/-- C6, amended, at concrete inputs: user 1 sends `hi` to user 2 (one row stored, one event
with the same id, sender 1 and the receiver and text of the body); the same request to the
unknown user 9 is refused by the store and emits nothing. -/
theorem sendMessage_broadcast_witness :
    sendMessage jsMysql false 3 4 dbThreeUsers [] ann (.number "2") (.string "hi") =
      (.json ⟨1, 1, .number "2", .string "hi", "ann", 4⟩,
       { dbThreeUsers with messages := [⟨1, 1, 2, "hi", 3⟩], messagesNextId := 2 },
       [⟨1, 1, .number "2", .string "hi", "ann", 4⟩]) ∧
    sendMessage jsMysql false 3 4 dbThreeUsers [] ann (.number "9") (.string "hi") =
      (.error 500 "Ошибка сервера", dbThreeUsers, []) ∧
    (∀ old ∈ ([] : List MessageData), EventStored jsMysql dbThreeUsers old) ∧
    ∀ e ∈ (sendMessage jsMysql false 3 4 dbThreeUsers [] ann (.number "2")
        (.string "hi")).2.2,
      EventStored jsMysql
        (sendMessage jsMysql false 3 4 dbThreeUsers [] ann (.number "2") (.string "hi")).2.1
        e :=
  ⟨by decide, by decide, fun old h => absurd h (List.not_mem_nil old),
   (sendMessage_broadcast jsMysql false 3 4 dbThreeUsers [] ann (.number "2")
      (.string "hi")).elim
     (fun hfail => absurd hfail.2 (by decide))
     (fun ⟨_, _, hok⟩ => hok.2.2.2.2.2.2.2.2.2.2.2.2
       (fun old h => absurd h (List.not_mem_nil old)))⟩

theorem filter_id_singleton (l : List User) (u : User) (hnd : (l.map (fun v => v.id)).Nodup)
    (hu : u ∈ l) : l.filter (fun v => u.id == v.id) = [u] := by
  induction l with
  | nil => exact absurd hu (List.not_mem_nil u)
  | cons v rest ih =>
    rw [List.map_cons, List.nodup_cons] at hnd
    rcases List.mem_cons.mp hu with rfl | hrest
    · have hnone : rest.filter (fun v => u.id == v.id) = [] := by
        rw [List.filter_eq_nil_iff]
        intro w hw hid
        rw [beq_iff_eq] at hid
        exact hnd.1 (List.mem_map.mpr ⟨w, hw, hid.symm⟩)
      simp [List.filter_cons, hnone]
    · have hne : ¬ u.id = v.id := by
        intro e
        exact hnd.1 (List.mem_map.mpr ⟨u, hrest, e⟩)
      simp [List.filter_cons, hne, ih hnd.2 hrest]

theorem join_toMessage (users : List User) (hnd : (users.map (fun v => v.id)).Nodup)
    (l : List Message) (hfk : ∀ m ∈ l, ∃ u ∈ users, u.id = m.sender_id) :
    (l.flatMap (fun m => (users.filter (fun u => m.sender_id == u.id)).map (fun u =>
      (⟨m.id, m.sender_id, m.receiver_id, m.message, m.created_at, u.username⟩ :
        MessageRow)))).map MessageRow.toMessage = l := by
  induction l with
  | nil => rfl
  | cons m rest ih =>
    obtain ⟨u, hu, hid⟩ := hfk m (List.mem_cons_self _ _)
    have h1 : users.filter (fun v => m.sender_id == v.id) = [u] := by
      rw [← hid]
      exact filter_id_singleton users u hnd hu
    rw [List.flatMap_cons, List.map_append, ih (fun k hk => hfk k (List.mem_cons_of_mem _ hk)),
      h1]
    rfl

theorem conversationWhere_iff (p1 p2 p3 p4 : Nat) (m : Message) :
    conversationWhere p1 p2 p3 p4 m = true ↔
      (m.sender_id = p1 ∧ m.receiver_id = p2) ∨ (m.sender_id = p3 ∧ m.receiver_id = p4) := by
  simp [conversationWhere]

/-- C7: in a store that satisfies the declared constraints (`users.id` a primary key,
`messages.sender_id` a reference to it) and without a store fault, the conversation
handler answers with rows whose message columns are, up to order and each exactly once,
the stored messages sent by the caller to `userId` or by `userId` to the caller; the rows
are in ascending order of `created_at`; each carries the username of the user whose id is
its sender; and each has the caller as its sender or its receiver. -/
theorem getMessages_conversation (db : Db) (user : AuthUser) (userId : Nat)
    (hc : db.Consistent) :
    ∃ rows : List MessageRow, getMessages false db user userId = .json rows ∧
      (rows.map MessageRow.toMessage).Perm
        (db.messages.filter (fun m =>
          decide ((m.sender_id = user.id ∧ m.receiver_id = userId) ∨
                  (m.sender_id = userId ∧ m.receiver_id = user.id)))) ∧
      rows.Pairwise (fun a b => a.created_at ≤ b.created_at) ∧
      (∀ r ∈ rows, ∃ u ∈ db.users, u.id = r.sender_id ∧ r.sender_name = u.username) ∧
      (∀ r ∈ rows, r.sender_id = user.id ∨ r.receiver_id = user.id) := by
  have hfilter : db.messages.filter (conversationWhere user.id userId userId user.id) =
      db.messages.filter (fun m =>
          decide ((m.sender_id = user.id ∧ m.receiver_id = userId) ∨
                  (m.sender_id = userId ∧ m.receiver_id = user.id))) := by
    apply List.filter_congr
    intro m _
    rw [Bool.eq_iff_iff, conversationWhere_iff, decide_eq_true_iff]
  have hjoin : (conversationJoin db user.id userId userId user.id).map MessageRow.toMessage =
      db.messages.filter (conversationWhere user.id userId userId user.id) :=
    join_toMessage db.users hc.1 _ (fun m hm => hc.2 m (List.mem_filter.mp hm).1)
  have hperm := List.perm_insertionSort createdAtLe
    (conversationJoin db user.id userId userId user.id)
  refine ⟨(conversationJoin db user.id userId userId user.id).insertionSort createdAtLe,
    by simp [getMessages, selectConversation], ?_, ?_, ?_, ?_⟩
  · rw [← hfilter, ← hjoin]
    exact hperm.map _
  · exact List.sorted_insertionSort createdAtLe _
  · intro r hr
    have hr1 := hperm.mem_iff.mp hr
    simp only [conversationJoin, List.mem_flatMap, List.mem_map, List.mem_filter] at hr1
    obtain ⟨m, -, u, ⟨hu, hid⟩, rfl⟩ := hr1
    rw [beq_iff_eq] at hid
    exact ⟨u, hu, hid.symm, rfl⟩
  · intro r hr
    have hr1 : r.toMessage ∈ (conversationJoin db user.id userId userId user.id).map
        MessageRow.toMessage := List.mem_map.mpr ⟨r, hperm.mem_iff.mp hr, rfl⟩
    rw [hjoin] at hr1
    have hw := (conversationWhere_iff _ _ _ _ _).mp (List.mem_filter.mp hr1).2
    rcases hw with ⟨h1, -⟩ | ⟨-, h2⟩
    · exact Or.inl h1
    · exact Or.inr h2

theorem dbChat_consistent : dbChat.Consistent := by
  constructor
  · decide
  · decide

/-- C7 at a concrete input: user 1 reads the conversation with user 2 in a store that
also holds a message from 3 to 2 and one from 1 to 3. -/
theorem getMessages_conversation_witness :
    dbChat.Consistent ∧
    getMessages false dbChat ann 2 =
      .json [⟨3, 2, 1, "hello", 10, "bob"⟩, ⟨1, 1, 2, "hi", 30, "ann"⟩] ∧
    ∃ rows : List MessageRow, getMessages false dbChat ann 2 = .json rows ∧
      (rows.map MessageRow.toMessage).Perm
        (dbChat.messages.filter (fun m =>
          decide ((m.sender_id = ann.id ∧ m.receiver_id = 2) ∨
                  (m.sender_id = 2 ∧ m.receiver_id = ann.id)))) ∧
      rows.Pairwise (fun a b => a.created_at ≤ b.created_at) ∧
      (∀ r ∈ rows, ∃ u ∈ dbChat.users, u.id = r.sender_id ∧ r.sender_name = u.username) ∧
      (∀ r ∈ rows, r.sender_id = ann.id ∨ r.receiver_id = ann.id) :=
  ⟨dbChat_consistent, by decide, getMessages_conversation dbChat ann 2 dbChat_consistent⟩

/-! ## The token check -/

theorem data_isEmpty_iff (s : String) : s.data.isEmpty = true ↔ s = "" := by
  rw [List.isEmpty_iff, String.ext_iff]

theorem splitChars_no_sep (sep : Char) (cs : List Char) (h : sep ∉ cs) :
    splitChars sep cs = [cs] := by
  induction cs with
  | nil => rfl
  | cons c rest ih =>
    have hc : c ≠ sep := fun e => h (e ▸ List.mem_cons_self _ _)
    have hrest : sep ∉ rest := fun hm => h (List.mem_cons_of_mem _ hm)
    simp [splitChars, hc, ih hrest]

theorem splitChars_two (sep : Char) (pre tok : List Char) (hpre : sep ∉ pre)
    (htok : sep ∉ tok) : splitChars sep (pre ++ sep :: tok) = [pre, tok] := by
  induction pre with
  | nil => simp [splitChars, splitChars_no_sep sep tok htok]
  | cons c rest ih =>
    have hc : c ≠ sep := fun e => hpre (e ▸ List.mem_cons_self _ _)
    have hrest : sep ∉ rest := fun hm => hpre (List.mem_cons_of_mem _ hm)
    simp [splitChars, hc, ih hrest]

theorem headerToken_bearer (tok : String) (hsp : ' ' ∉ tok.data) :
    headerToken (some ("Bearer " ++ tok)) = some tok := by
  have hdata : ("Bearer " ++ tok).data = ['B', 'e', 'a', 'r', 'e', 'r'] ++ ' ' :: tok.data := by
    rw [String.data_append]
    rfl
  have hsplit := splitChars_two ' ' ['B', 'e', 'a', 'r', 'e', 'r'] tok.data (by decide) hsp
  have hne : ("Bearer " ++ tok).data.isEmpty = false := by
    rw [hdata]
    rfl
  simp only [headerToken, jsSplit, hne, Bool.false_eq_true, if_false]
  rw [hdata, hsplit]
  rfl

theorem headerToken_some (h : String) :
    headerToken (some h) = (jsSplit h ' ')[1]? ∨
    (headerToken (some h) = some "" ∧ (jsSplit h ' ')[1]? = none) := by
  unfold headerToken
  by_cases he : h.data.isEmpty = true
  · right
    have h0 := (data_isEmpty_iff h).mp he
    subst h0
    exact ⟨rfl, rfl⟩
  · left
    simp [he]

theorem falsy_iff (v : Option String) : falsy v = true ↔ v = none ∨ v = some "" := by
  cases v with
  | none => simp [falsy]
  | some s => simp [falsy, ← data_isEmpty_iff]

theorem authenticateToken_eq (verify : String → String → Except Unit AuthUser)
    (secret : String) (authHeader : Option String) (tok : String)
    (h : headerToken authHeader = some tok) (hne : tok ≠ "") :
    authenticateToken verify secret authHeader =
      (match verify tok secret with
       | .error _ => .sendStatus 403
       | .ok user => .next user) := by
  have hf : falsy (some tok) = false := by
    rw [← Bool.not_eq_true, falsy_iff]
    simp [hne]
  simp only [authenticateToken, h, hf, Bool.false_eq_true, if_false, Option.getD_some]

theorem authenticateToken_401_iff (verify : String → String → Except Unit AuthUser)
    (secret : String) (authHeader : Option String) :
    authenticateToken verify secret authHeader = .sendStatus 401 ↔
      headerToken authHeader = none ∨ headerToken authHeader = some "" := by
  rw [← falsy_iff]
  unfold authenticateToken
  by_cases hf : falsy (headerToken authHeader) = true
  · simp [hf]
  · simp only [hf, Bool.false_eq_true, if_false, iff_false]
    cases verify ((headerToken authHeader).getD "") secret <;> simp

theorem headerToken_eq_none_or_empty_iff (authHeader : Option String) :
    (headerToken authHeader = none ∨ headerToken authHeader = some "") ↔
      (authHeader = none ∨ ∃ h, authHeader = some h ∧
        ((jsSplit h ' ')[1]? = none ∨ (jsSplit h ' ')[1]? = some "")) := by
  cases authHeader with
  | none => simp [headerToken]
  | some h =>
    simp only [false_or, Option.some.injEq, exists_eq_left', reduceCtorEq]
    rcases headerToken_some h with h1 | ⟨h1, h2⟩
    · rw [h1]
    · rw [h1, h2]
      simp

theorem headerToken_of_field (h tok : String) (hfield : (jsSplit h ' ')[1]? = some tok) :
    headerToken (some h) = some tok := by
  rcases headerToken_some h with h1 | ⟨-, h2⟩
  · rw [h1, hfield]
  · rw [h2] at hfield
    exact absurd hfield (by simp)

theorem authenticateToken_next (verify : String → String → Except Unit AuthUser)
    (secret : String) (authHeader : Option String) (user : AuthUser)
    (hnext : authenticateToken verify secret authHeader = .next user) :
    ∃ h tok, authHeader = some h ∧ (jsSplit h ' ')[1]? = some tok ∧ tok ≠ "" ∧
      verify tok secret = .ok user := by
  have h401 : ¬ (headerToken authHeader = none ∨ headerToken authHeader = some "") := by
    intro hc
    rw [(authenticateToken_401_iff verify secret authHeader).mpr hc] at hnext
    exact absurd hnext (by simp)
  cases authHeader with
  | none => exact absurd (Or.inl rfl) h401
  | some h =>
    cases htok : headerToken (some h) with
    | none => exact absurd (Or.inl htok) h401
    | some tok =>
      have hne : tok ≠ "" := fun e => h401 (Or.inr (by rw [htok, e]))
      have hfield : (jsSplit h ' ')[1]? = some tok := by
        rcases headerToken_some h with h1 | ⟨h1, -⟩
        · rw [← h1, htok]
        · rw [htok] at h1
          exact absurd (Option.some.inj h1) hne
      rw [authenticateToken_eq verify secret (some h) tok htok hne] at hnext
      refine ⟨h, tok, rfl, hfield, hne, ?_⟩
      cases hv : verify tok secret with
      | error e => rw [hv] at hnext; exact absurd hnext (by simp)
      | ok u =>
        rw [hv] at hnext
        simp only [AuthOutcome.next.injEq] at hnext
        rw [hnext]

theorem login_json (compare : String → String → Bool)
    (sign : Nat → String → String → String) (secret : String) (sf : Bool) (db : Db)
    (email password : Option String) (body : LoginBody)
    (h : login compare sign secret sf db email password = .json body) :
    ∃ U ∈ db.users, some U.email = email ∧ compare (password.getD "") U.password = true ∧
      body.user.id = U.id ∧ body.user.username = U.username ∧
      body.token = sign U.id U.username secret := by
  unfold login selectUsersByEmail at h
  by_cases hf : (falsy email || falsy password) = true
  · simp [hf] at h
  · simp only [hf, Bool.false_eq_true, if_false] at h
    cases sf with
    | true => simp at h
    | false =>
      simp only [Bool.false_eq_true, if_false] at h
      cases hres : db.users.filter (fun u => u.email == email.getD "") with
      | nil => simp [hres] at h
      | cons U rest =>
        have hmem : U ∈ db.users.filter (fun u => u.email == email.getD "") := by
          rw [hres]
          exact List.mem_cons_self _ _
        obtain ⟨hU, hmail⟩ := List.mem_filter.mp hmem
        rw [beq_iff_eq] at hmail
        have hemail : some U.email = email := by
          cases email with
          | none => simp [falsy] at hf
          | some e => simpa using hmail
        simp only [hres] at h
        by_cases hcmp : compare (password.getD "") U.password = true
        · simp only [hcmp, Bool.not_true, Bool.false_eq_true, if_false,
            Reply.json.injEq] at h
          subst h
          exact ⟨U, hU, hemail, hcmp, rfl, rfl, rfl⟩
        · simp [hcmp] at h

/-- C5: `authenticateToken` (a) answers 401 and does not go on exactly when the
authorization header is absent or its second space-separated field is missing or empty;
(b) with a non-empty second field it answers 403 when `verify` fails on that field under
the server secret, and (c) otherwise goes on with `req.user` equal to the payload `verify`
returned.  A protected route runs its handler only in case (c), on that payload.  A token
issued by `login` is the signature of the id and username of the user found by email, and
presented as `Bearer <token>` it makes the handler run on whatever payload `verify`
returns for it. -/
theorem authenticateToken_contract (verify : String → String → Except Unit AuthUser)
    (secret : String) (authHeader : Option String) :
    (authenticateToken verify secret authHeader = .sendStatus 401 ↔
      authHeader = none ∨ ∃ h, authHeader = some h ∧
        ((jsSplit h ' ')[1]? = none ∨ (jsSplit h ' ')[1]? = some "")) ∧
    (∀ h tok, authHeader = some h → (jsSplit h ' ')[1]? = some tok → tok ≠ "" →
      (∀ e, verify tok secret = .error e →
        authenticateToken verify secret authHeader = .sendStatus 403) ∧
      (∀ user, verify tok secret = .ok user →
        authenticateToken verify secret authHeader = .next user)) ∧
    (∀ (α : Type) (handler : AuthUser → α) (r : α),
      protectedRoute verify secret authHeader handler = .handled r →
      ∃ h tok user, authHeader = some h ∧ (jsSplit h ' ')[1]? = some tok ∧ tok ≠ "" ∧
        verify tok secret = .ok user ∧ r = handler user) ∧
    (∀ (α : Type) (handler : AuthUser → α) (user : AuthUser),
      authenticateToken verify secret authHeader = .next user →
      protectedRoute verify secret authHeader handler = .handled (handler user)) ∧
    (∀ (compare : String → String → Bool) (sign : Nat → String → String → String)
      (sf : Bool) (db : Db) (email password : Option String) (body : LoginBody),
      login compare sign secret sf db email password = .json body →
      (∃ U ∈ db.users, some U.email = email ∧ body.user.id = U.id ∧
        body.user.username = U.username ∧ body.token = sign U.id U.username secret) ∧
      (' ' ∉ body.token.data → body.token ≠ "" →
        ∀ p, verify body.token secret = .ok p →
          ∀ (α : Type) (handler : AuthUser → α),
            protectedRoute verify secret (some ("Bearer " ++ body.token)) handler =
              .handled (handler p))) := by
  refine ⟨?_, ?_, ?_, ?_, ?_⟩
  · rw [authenticateToken_401_iff, headerToken_eq_none_or_empty_iff]
  · intro h tok hh hfield hne
    subst hh
    have htok := headerToken_of_field h tok hfield
    rw [authenticateToken_eq verify secret (some h) tok htok hne]
    constructor
    · intro e he
      rw [he]
    · intro user hu
      rw [hu]
  · intro α handler r hr
    unfold protectedRoute at hr
    cases hout : authenticateToken verify secret authHeader with
    | sendStatus code => rw [hout] at hr; exact absurd hr (by simp)
    | next user =>
      rw [hout] at hr
      simp only [RouteReply.handled.injEq] at hr
      obtain ⟨h, tok, h1, h2, h3, h4⟩ := authenticateToken_next verify secret authHeader user hout
      exact ⟨h, tok, user, h1, h2, h3, h4, hr.symm⟩
  · intro α handler user hout
    simp [protectedRoute, hout]
  · intro compare sign sf db email password body hlogin
    obtain ⟨U, hU, h1, -, h2, h3, h4⟩ :=
      login_json compare sign secret sf db email password body hlogin
    refine ⟨⟨U, hU, h1, h2, h3, h4⟩, ?_⟩
    intro hsp hne p hp α handler
    have htok := headerToken_bearer body.token hsp
    have hout := authenticateToken_eq verify secret _ body.token htok hne
    rw [hp] at hout
    simp [protectedRoute, hout]

/-- C5 at concrete inputs, with a toy signer and verifier: no header, `Bearer` alone and
`Bearer` followed by two spaces give 401; a token the verifier rejects gives 403; the
token that `login` issues for user 1 makes the handler run on the identity (1, `ann`). -/
theorem authenticateToken_contract_witness :
    authenticateToken toyVerify "s3cret" none = .sendStatus 401 ∧
    authenticateToken toyVerify "s3cret" (some "Bearer") = .sendStatus 401 ∧
    authenticateToken toyVerify "s3cret" (some "Bearer  ann.s3cret") = .sendStatus 401 ∧
    authenticateToken toyVerify "s3cret" (some "Bearer ann.other") = .sendStatus 403 ∧
    login toyCompare toySign "s3cret" false dbAnn (some "ann@x.io") (some "pw") =
      .json ⟨"ann.s3cret", ⟨1, "ann", "ann@x.io", none, none, none⟩⟩ ∧
    protectedRoute toyVerify "s3cret" (some ("Bearer " ++ "ann.s3cret"))
      (fun user => (user.id, user.username)) = .handled (1, "ann") :=
  ⟨by decide, by decide, by decide, by decide, by decide,
   ((authenticateToken_contract toyVerify "s3cret" none).2.2.2.2
      toyCompare toySign false dbAnn (some "ann@x.io") (some "pw")
      ⟨"ann.s3cret", ⟨1, "ann", "ann@x.io", none, none, none⟩⟩ (by decide)).2
      (by decide) (by decide) ⟨1, "ann", 0⟩ rfl _ _⟩

/-! ## Registration -/

/-- C8 on the code: the store holds one user, `ann`, registered with the email
`username@x.io`.  A
registration with the new username `carl` and that email is refused by the key of `email`,
the store's message is `Duplicate entry 'username@x.io' for key 'email'`, and the handler
answers with the message for a taken username, not the one for a taken email.  The store
is left as it was. -/
theorem register_taken_email_reported_as_username :
    register toyHash false 1 emptyDb (some "ann") (some "username@x.io") (some "pw") =
      (.json "Пользователь создан", dbMail) ∧
    dbMail.users.any (fun u => u.username == "carl") = false ∧
    dbMail.users.any (fun u => u.email == "username@x.io") = true ∧
    insertUser false 9 dbMail "carl" "username@x.io" (toyHash "pw") =
      .error (.ER_DUP_ENTRY "Duplicate entry \x27username@x.io\x27 for key \x27email\x27") ∧
    register toyHash false 9 dbMail (some "carl") (some "username@x.io") (some "pw") =
      (.error 400 "Пользователь с таким именем уже существует", dbMail) ∧
    register toyHash false 9 dbMail (some "carl") (some "username@x.io") (some "pw") ≠
      (.error 400 "Пользователь с таким email уже существует", dbMail) :=
  ⟨by decide, by decide, by decide, rfl, by decide, by decide⟩

/-! ## User search -/

/-- C9 on the code: user 1 searches for `__` among the three users of `dbThreeUsers`.  The
handler answers with the rows of `bob` and `cyd`, although `__` is a substring of neither
their usernames nor their emails: the query text goes into the `LIKE` pattern as it is,
and `_` there stands for any character. -/
theorem searchUsers_wildcard_not_substring :
    searchUsers false dbThreeUsers ann (some "__") =
      .json [⟨2, "bob", "bob@x.io", none, none, none⟩,
             ⟨3, "cyd", "cyd@x.io", none, some .accepted, some "received"⟩] ∧
    includesIgnoringCase "bob" "__" = false ∧
    includesIgnoringCase "bob@x.io" "__" = false ∧
    includesIgnoringCase "cyd" "__" = false ∧
    includesIgnoringCase "cyd@x.io" "__" = false := by
  decide

/-! ## The declared constraints hold in every reachable store -/

theorem toggleLike_cases (f1 f2 : Bool) (db : Db) (user : AuthUser) (postId : Nat) :
    (toggleLike f1 f2 db user postId).2 = db ∨
    ∃ t, (toggleLike f1 f2 db user postId).2 = { db with likes := t } := by
  cases f1
  · cases f2
    · by_cases h : (⟨user.id, postId⟩ : Like) ∈ db.likes
      · exact Or.inr ⟨_, by rw [toggleLike_liked db user postId h]⟩
      · exact Or.inr ⟨_, by rw [toggleLike_not_liked db user postId h]⟩
    · left
      simp only [toggleLike, selectLikes, deleteLikes, insertLike, Bool.false_eq_true,
        if_false, if_true]
      split <;> rfl
  · left
    rfl

theorem friendCall_run_tables (rt : Runtime) (db : Db) (call : FriendCall) :
    (call.run rt db).users = db.users ∧ (call.run rt db).usersNextId = db.usersNextId ∧
    (call.run rt db).messages = db.messages := by
  cases call with
  | request sf now user userId =>
    rcases sendFriendRequest_cases rt sf now db user userId with h | ⟨_, -, -, -, h⟩ <;>
      simp [FriendCall.run, h]
  | accept sf user userId =>
    rcases acceptFriendRequest_cases sf db user userId with h | h <;>
      simp [FriendCall.run, h]
  | remove sf user userId =>
    rcases removeFriend_cases sf db user userId with h | h <;>
      simp [FriendCall.run, h]

theorem wellFormed_of_tables (db db1 : Db) (h : db.WellFormed)
    (hu : db1.users = db.users) (hn : db1.usersNextId = db.usersNextId)
    (hm : db1.messages = db.messages) : db1.WellFormed := by
  unfold Db.WellFormed Db.Consistent at *
  rw [hu, hn, hm]
  exact h

theorem register_cases (hash : String → String) (sf : Bool) (now : Nat) (db : Db)
    (username email password : Option String) :
    (register hash sf now db username email password).2 = db ∨
    ∃ u : User, u.id = db.usersNextId ∧
      (register hash sf now db username email password).2 =
        { db with users := db.users ++ [u], usersNextId := db.usersNextId + 1 } := by
  unfold register insertUser
  by_cases hf : (falsy username || falsy email || falsy password) = true
  · left
    simp [hf]
  · simp only [hf, Bool.false_eq_true, if_false]
    cases sf
    · by_cases h1 : db.users.any (fun u => u.username == username.getD "") = true
      · left
        simp only [Bool.false_eq_true, if_false, h1, if_true]
        split <;> first | rfl | (split <;> rfl)
      · by_cases h2 : db.users.any (fun u => u.email == email.getD "") = true
        · left
          simp only [Bool.false_eq_true, if_false, h1, h2, if_true]
          split <;> first | rfl | (split <;> rfl)
        · right
          simp only [Bool.false_eq_true, if_false, h1, h2]
          exact ⟨_, rfl, rfl⟩
    · left
      rfl

theorem sendMessage_cases (rt : Runtime) (sf : Bool) (now jsNow : Nat) (db : Db)
    (events : List MessageData) (user : AuthUser) (receiver_id message : JsValue) :
    (sendMessage rt sf now jsNow db events user receiver_id message).2.1 = db ∨
    ∃ row : Message, (∃ u ∈ db.users, u.id = row.sender_id) ∧
      (sendMessage rt sf now jsNow db events user receiver_id message).2.1 =
        { db with messages := db.messages ++ [row],
                  messagesNextId := db.messagesNextId + 1 } := by
  unfold sendMessage insertMessage
  cases sf
  · cases hr : rt.toInt receiver_id with
    | null => left; rfl
    | rejected => left; rfl
    | value r =>
      cases ht : rt.toText message with
      | null => left; rfl
      | rejected => left; rfl
      | value text =>
        by_cases hok : (db.users.any (fun u => u.id == user.id) &&
            db.users.any (fun u => u.id == r)) = true
        · right
          simp only [Bool.false_eq_true, if_false, hok, if_true]
          refine ⟨⟨db.messagesNextId, user.id, r, text, now⟩, ?_, rfl⟩
          simp only [Bool.and_eq_true, List.any_eq_true, beq_iff_eq] at hok
          exact hok.1
        · left
          simp only [Bool.false_eq_true, if_false, hok]
  · left
    rfl

theorem wellFormed_run (rt : Runtime) (hash : String → String) (db : Db) (call : Call)
    (h : db.WellFormed) : (call.run rt hash db).WellFormed := by
  cases call with
  | register sf now username email password =>
    rcases register_cases hash sf now db username email password with h1 | ⟨u, hid, h1⟩
    · simpa [Call.run, h1] using h
    · obtain ⟨⟨hnd, hfk⟩, hlt⟩ := h
      simp only [Call.run, h1]
      refine ⟨⟨?_, ?_⟩, ?_⟩
      · simp only [List.map_append, List.map_cons, List.map_nil]
        refine List.Nodup.append hnd (List.nodup_singleton _) ?_
        intro k hk1 hk2
        rw [List.mem_singleton] at hk2
        obtain ⟨v, hv, hvk⟩ := List.mem_map.mp hk1
        have := hlt v hv
        omega
      · intro m hm
        obtain ⟨v, hv, hvm⟩ := hfk m hm
        exact ⟨v, List.mem_append_left _ hv, hvm⟩
      · intro v hv
        rcases List.mem_append.mp hv with hv1 | hv1
        · exact Nat.lt_succ_of_lt (hlt v hv1)
        · rw [List.mem_singleton] at hv1
          subst hv1
          simp only
          omega
  | sendMessage sf now jsNow user receiver_id message =>
    rcases sendMessage_cases rt sf now jsNow db [] user receiver_id message with
      h1 | ⟨row, hsender, h1⟩
    · simpa [Call.run, h1] using h
    · obtain ⟨⟨hnd, hfk⟩, hlt⟩ := h
      simp only [Call.run, h1]
      refine ⟨⟨hnd, ?_⟩, hlt⟩
      intro m hm
      rcases List.mem_append.mp hm with hm1 | hm1
      · exact hfk m hm1
      · rw [List.mem_singleton] at hm1
        subst hm1
        exact hsender
  | friend call =>
    obtain ⟨h1, h2, h3⟩ := friendCall_run_tables rt db call
    exact wellFormed_of_tables db _ h h1 h2 h3
  | toggleLike f1 f2 user postId =>
    rcases toggleLike_cases f1 f2 db user postId with h1 | ⟨t, h1⟩
    · simpa [Call.run, h1] using h
    · exact wellFormed_of_tables db _ h (by simp [Call.run, h1]) (by simp [Call.run, h1])
        (by simp [Call.run, h1])

theorem consistent_runCalls (rt : Runtime) (hash : String → String) (calls : List Call)
    (db : Db) (h : db.WellFormed) : (runCalls rt hash db calls).Consistent := by
  have hwf : (runCalls rt hash db calls).WellFormed := by
    induction calls generalizing db with
    | nil => simpa [runCalls] using h
    | cons call rest ih =>
      simp only [runCalls, List.foldl_cons]
      exact ih _ (wellFormed_run rt hash db call h)
  exact hwf.1

theorem emptyDb_wellFormed : emptyDb.WellFormed := by
  refine ⟨⟨List.nodup_nil, ?_⟩, ?_⟩ <;> intro x hx <;> exact absurd hx (List.not_mem_nil x)

end AppChill
